import Mathlib

/-!
Shallow embedding of the logical gameplay engine of the pushdg repository
(`src/gameplay.rs`): the object model, the push/pull move resolver, the
interaction table, the visibility recomputation and the agent scheduler,
together with theorems settling the frozen claims about that code.

Modelling conventions, kept uniform through the file:
* Rust `i32` values (hit points, damages, mass, force, redo counters) are
  modelled as `Int`; no arithmetic in the translated code can overflow `i32`
  on the inputs the claims quantify over, so wrap-around is not modelled.
* `IVec2` integer vectors are a two-field structure of `Int`.
* The `HashMap<IVec2, Tile>` grid is modelled as an association list
  `List (IVec2 × Tile)`; `lookup` returns the first entry with the key, and
  the in-place mutations of the source (`get_mut`) modify the first entry
  with the key and leave the list unchanged when the key is absent (the
  source `unwrap`s in those places; every such place is guarded by a
  previously established presence fact in the source).
* Source loops whose bound is the remaining force are translated as
  structural recursion on a fuel of `force.toNat + 2`; every mass is at
  least 1, so the fuel is never exhausted (`push_scan_fuel_sufficient`).
* The floating-point ray-marching body of the visibility pass is modelled
  as an abstract boolean oracle parameter; the exact-integer parts of the
  visibility computation (`dist == 0.0`, `dist <= 6.5`, distance
  comparisons between integer points) are modelled with exact squared
  integer distances, which agree with the `f32` computations on the
  magnitudes that occur (all squared distances involved are small integers,
  exactly representable, and correctly-rounded `sqrt` preserves their
  order).
-/

set_option maxHeartbeats 2000000

/-- Two-dimensional integer vector, standing for the `IVec2` coordinates of the source. -/
structure IVec2 where
  x : Int
  y : Int
deriving DecidableEq

instance : Add IVec2 := ⟨fun a b => ⟨a.x + b.x, a.y + b.y⟩⟩

instance : Sub IVec2 := ⟨fun a b => ⟨a.x - b.x, a.y - b.y⟩⟩

instance : Neg IVec2 := ⟨fun a => ⟨-a.x, -a.y⟩⟩

/-- Rotation by 90 degrees, `IVec2::perp` of glam. -/
def IVec2.perp (v : IVec2) : IVec2 := ⟨-v.y, v.x⟩

/-- Point `c + k * d` on the ray from `c` in direction `d` (used to name chain positions). -/
def IVec2.along (c : IVec2) (k : Int) (d : IVec2) : IVec2 := ⟨c.x + k * d.x, c.y + k * d.y⟩

/-- The four unit directions, `four_directions` of the source. -/
def four_directions : List IVec2 := [⟨1, 0⟩, ⟨0, 1⟩, ⟨-1, 0⟩, ⟨0, -1⟩]

/-- Objects of the game, the `Obj` enum of the source. -/
inductive Obj where
  | Wall
  | Sword
  | Shield
  | Pickaxe
  | Rock
  | Exit
  | VisionGem
  | Heart
  | RedoHeart
  | Door
  | Key
  | Rope
  | Bush
  | Bunny (hp max_hp : Int)
  | Slime (hp : Int) (move_token : Bool)
  | Shroomer (hp : Int) (move_token : Bool)
  | Shroom (move_token : Bool)
  | Fish (direction : IVec2) (move_token : Bool)
deriving DecidableEq

namespace Obj

/-- Mass of an object, `Obj::mass` of the source. -/
def mass : Obj → Int
  | Wall | Door | Shroom _ => 10
  | Bunny _ _ | Slime _ _ | Shroomer _ _ => 3
  | _ => 1

/-- Damages dealt by an object, `Obj::damages` of the source. -/
def damages : Obj → Int
  | Sword => 3
  | Shield | Exit | Heart | RedoHeart => 0
  | Slime _ _ => 2
  | Shroomer _ _ => 2
  | _ => 1

/-- Hit points of an object when it has some, `Obj::hp` of the source. -/
def hp : Obj → Option Int
  | Bunny h _ => some h
  | Slime h _ => some h
  | Shroomer h _ => some h
  | _ => none

/-- Damage application, `Obj::take_damage` of the source. -/
def take_damage (o : Obj) (damages : Int) : Obj :=
  match o with
  | Bunny h m => Bunny (h - damages) m
  | Slime h t => Slime (h - damages) t
  | Shroomer h t => Shroomer (h - damages) t
  | o => o

/-- Vision blocking, `Obj::blocks_vision` of the source. -/
def blocks_vision : Obj → Bool
  | Wall | Bush => true
  | _ => false

/-- Hostility flag, `Obj::is_enemy` of the source. -/
def is_enemy : Obj → Bool
  | Slime _ _ | Shroomer _ _ => true
  | _ => false

/-- Token query, `Obj::has_move_token` of the source. -/
def has_move_token : Obj → Bool
  | Slime _ t | Shroomer _ t | Shroom t | Fish _ t => t
  | _ => false

/-- Token consumption, state part of `Obj::take_move_token` of the source
(the returned boolean of the source is `has_move_token`). -/
def take_move_token : Obj → Obj
  | Slime h _ => Slime h false
  | Shroomer h _ => Shroomer h false
  | Shroom _ => Shroom false
  | Fish d _ => Fish d false
  | o => o

end Obj

/-- Ground of a tile, the `Ground` enum of the source (a single variant). -/
inductive Ground where
  | Floor
deriving DecidableEq

/-- One tile of the grid, the `Tile` struct of the source. -/
structure Tile where
  ground : Ground
  obj : Option Obj
  visible : Bool
deriving DecidableEq

/-- Tile with no object, `Tile::floor` of the source. -/
def Tile.floor : Tile := ⟨Ground.Floor, none, false⟩

/-- Tile holding an object, `Tile::obj` of the source. -/
def Tile.objTile (o : Obj) : Tile := ⟨Ground.Floor, some o, false⟩

/-- Lookup of the tile at a key in the association-list grid (the `HashMap`
lookup of the source; first entry with the key). -/
def lookupTile : List (IVec2 × Tile) → IVec2 → Option Tile
  | [], _ => none
  | e :: r, c => if e.1 = c then some e.2 else lookupTile r c

/-- Object at a key, `LogicalWorld::obj` of the source. -/
def objAtList (g : List (IVec2 × Tile)) (c : IVec2) : Option Obj :=
  (lookupTile g c).bind (fun t => t.obj)

/-- Replace the object of the tile at a key (the `get_mut(..).obj = ..`
mutation of the source); leaves the grid unchanged when the key is absent. -/
def setObjAt : List (IVec2 × Tile) → IVec2 → Option Obj → List (IVec2 × Tile)
  | [], _, _ => []
  | e :: r, c, o => if e.1 = c then (e.1, { e.2 with obj := o }) :: r else e :: setObjAt r c o

/-- Apply a function to the object of the tile at a key (the in-place
`get_mut(..).obj.as_mut()` mutations of the source). -/
def modifyObjAt : List (IVec2 × Tile) → IVec2 → (Obj → Obj) → List (IVec2 × Tile)
  | [], _, _ => []
  | e :: r, c, f =>
    if e.1 = c then (e.1, { e.2 with obj := e.2.obj.map f }) :: r else e :: modifyObjAt r c f

/-- Rewrite every tile's `visible` flag using a per-tile boolean (each of the
visibility passes of the source is one such rewrite reading a snapshot). -/
def mapVisible (f : IVec2 → Tile → Bool) (g : List (IVec2 × Tile)) : List (IVec2 × Tile) :=
  g.map (fun e => (e.1, { e.2 with visible := f e.1 e.2 }))

/-- Logical world, the `LogicalWorld` struct of the source. -/
structure LogicalWorld where
  grid : List (IVec2 × Tile)
  redo_count : Int
  max_redo_count : Int
deriving DecidableEq

namespace LogicalWorld

/-- Fresh empty world, `LogicalWorld::new_empty` of the source. -/
def new_empty : LogicalWorld := ⟨[], 3, 9⟩

/-- Object lookup on a world, `LogicalWorld::obj` of the source. -/
def obj (lw : LogicalWorld) (c : IVec2) : Option Obj := objAtList lw.grid c

/-- Coordinates of the first tile holding a `Bunny`, `LogicalWorld::player_coords`
of the source. -/
def player_coords (lw : LogicalWorld) : Option IVec2 :=
  lw.grid.findSome? (fun e =>
    match e.2.obj with
    | some (Obj.Bunny _ _) => some e.1
    | _ => none)

end LogicalWorld

/-- Consequences of an interaction, the `InteractionConsequences` enum of the source. -/
inductive InteractionConsequences where
  | NonLethalHit (damages : Int)
  | Kill (damages : Int)
  | Mine
  | KeyOpenDoor
  | Exit (atCoords : IVec2)
  | Heal
  | GainARedo
  | StompShroom
deriving DecidableEq

/-- Move permission of an interaction, `InteractionConsequences::allows_move` of the source. -/
def InteractionConsequences.allows_move : InteractionConsequences → Bool
  | NonLethalHit _ => false
  | Kill _ | Mine | StompShroom | KeyOpenDoor | Heal | GainARedo | Exit _ => true

/-- Guard of the `matches!(dst_obj, Obj::Exit)` clause of the source. -/
def is_exit_obj : Obj → Bool
  | Obj.Exit => true
  | _ => false

/-- Guard of the `matches!((src_obj, dst_obj), (Obj::Pickaxe, Obj::Wall))` clause of the source. -/
def pickaxe_wall (src dst : Obj) : Bool :=
  match dst, src with
  | Obj.Wall, Obj.Pickaxe => true
  | _, _ => false

/-- Guard of the `matches!((src_obj, dst_obj), (Obj::Key, Obj::Door))` clause of the source. -/
def key_door (src dst : Obj) : Bool :=
  match dst, src with
  | Obj.Door, Obj.Key => true
  | _, _ => false

/-- Guard of the `matches!((src_obj, dst_obj), (Obj::Bunny .., Obj::Heart))` clause of the source. -/
def bunny_heart (src dst : Obj) : Bool :=
  match dst, src with
  | Obj.Heart, Obj.Bunny _ _ => true
  | _, _ => false

/-- Guard of the `matches!((src_obj, dst_obj), (Obj::Bunny .., Obj::RedoHeart))` clause of the source. -/
def bunny_redo_heart (src dst : Obj) : Bool :=
  match dst, src with
  | Obj.RedoHeart, Obj.Bunny _ _ => true
  | _, _ => false

/-- Guard of the `matches!(dst_obj, Obj::Shroom ..)` clause of the source. -/
def is_shroom_obj : Obj → Bool
  | Obj.Shroom _ => true
  | _ => false

/-- Interaction table, `LogicalWorld::what_would_happen_if_interact` of the source:
the conditional chain deciding what happens when `src_obj` is pushed into
`dst_obj` at `dst_coords` in a blocked push. -/
def what_would_happen_if_interact (src_obj dst_obj : Obj) (dst_coords : IVec2) :
    Option InteractionConsequences :=
  if is_exit_obj dst_obj then some (InteractionConsequences.Exit dst_coords)
  else if pickaxe_wall src_obj dst_obj then some InteractionConsequences.Mine
  else if key_door src_obj dst_obj then some InteractionConsequences.KeyOpenDoor
  else if bunny_heart src_obj dst_obj then some InteractionConsequences.Heal
  else if bunny_redo_heart src_obj dst_obj then some InteractionConsequences.GainARedo
  else if is_shroom_obj dst_obj then some InteractionConsequences.StompShroom
  else
    match dst_obj.hp with
    | some target_hp =>
      some (if target_hp ≤ src_obj.damages then InteractionConsequences.Kill src_obj.damages
            else InteractionConsequences.NonLethalHit src_obj.damages)
    | none => none

/-- Interaction table written the way the specification states it: an ordered
list of guarded clauses tried first-match-first. Used as the comparison point
for the refinement claim about the priority order of the source's chain. -/
def interact_priority_table (src_obj dst_obj : Obj) (dst_coords : IVec2) :
    List (Option InteractionConsequences) :=
  [ if is_exit_obj dst_obj then some (InteractionConsequences.Exit dst_coords) else none,
    if pickaxe_wall src_obj dst_obj then some InteractionConsequences.Mine else none,
    if key_door src_obj dst_obj then some InteractionConsequences.KeyOpenDoor else none,
    if bunny_heart src_obj dst_obj then some InteractionConsequences.Heal else none,
    if bunny_redo_heart src_obj dst_obj then some InteractionConsequences.GainARedo else none,
    if is_shroom_obj dst_obj then some InteractionConsequences.StompShroom else none,
    match dst_obj.hp with
    | some target_hp =>
      some (if target_hp ≤ src_obj.damages then InteractionConsequences.Kill src_obj.damages
            else InteractionConsequences.NonLethalHit src_obj.damages)
    | none => none ]

/-- First matching clause of the priority table (the specification's
first-match-wins reading of the interaction order). -/
def interact_spec (src_obj dst_obj : Obj) (dst_coords : IVec2) :
    Option InteractionConsequences :=
  (interact_priority_table src_obj dst_obj dst_coords).findSome? id

/-- Outcome of the forward walk of the push loop of
`LogicalWorld::what_would_happen_if_try_to_move`. -/
inductive PushScanOutcome where
  | reachedFree (length : Nat)
  | reachedEdge (length : Nat)
  | forceBlocked (length : Nat) (blockCoords : IVec2)
deriving DecidableEq

/-- Length carried by a push-scan outcome. -/
def PushScanOutcome.length : PushScanOutcome → Nat
  | reachedFree n => n
  | reachedEdge n => n
  | forceBlocked n _ => n

/-- Forward walk of the push loop of the source: starting one tile past
`coords0`, subtract each met object's mass from the remaining force until an
empty tile (`reachedFree`), a missing tile (`reachedEdge`) or a negative
remaining force (`forceBlocked`) stops the walk. The fuel only bounds the
recursion; with fuel `force.toNat + 2` it is never exhausted because every
mass is at least 1. -/
def push_scan (g : List (IVec2 × Tile)) (direction : IVec2) :
    Nat → IVec2 → Int → Nat → PushScanOutcome
  | 0, _, _, length => PushScanOutcome.reachedEdge length
  | fuel + 1, coords0, remaining_force, length =>
    let coords := coords0 + direction
    match lookupTile g coords with
    | none => PushScanOutcome.reachedEdge (length + 1)
    | some tile =>
      match tile.obj with
      | none => PushScanOutcome.reachedFree (length + 1)
      | some dst_obj =>
        let rf := remaining_force - dst_obj.mass
        if rf < 0 then PushScanOutcome.forceBlocked (length + 1) coords
        else push_scan g direction fuel coords rf (length + 1)

/-- Backward interaction scan of the source, run from the blocking tile toward
the mover when the push is force-blocked: at most `length` adjacent
`(src, dst)` pairs are tested against the interaction table; the first hit
stops the scan with that interaction, its move permission and the shortened
chain length; an exhausted scan yields failure with no interaction and the
full length. -/
def back_scan (g : List (IVec2 × Tile)) (direction : IVec2) (length : Nat) :
    Nat → IVec2 → Bool × Option InteractionConsequences × Nat
  | 0, _ => (false, none, length)
  | k + 1, coords =>
    match objAtList g (coords - direction), objAtList g coords with
    | some src_obj, some dst_obj =>
      match what_would_happen_if_interact src_obj dst_obj coords with
      | some i => (i.allows_move, some i, k + 1)
      | none => back_scan g direction length k (coords - direction)
    | _, _ => back_scan g direction length k (coords - direction)

/-- Backward pull walk of the source (the rope mechanic): tiles behind the
mover are pulled while they hold a `Rope` or directly follow a pulled `Rope`,
each consuming its mass from a fresh copy of the force budget. Fuel as in
`push_scan`. -/
def pull_scan (g : List (IVec2 × Tile)) (direction : IVec2) :
    Nat → IVec2 → Int → Bool → Nat → Nat
  | 0, _, _, _, pulled => pulled
  | fuel + 1, coords0, remaining_force, can_pull_next, pulled =>
    let coords := coords0 - direction
    match objAtList g coords with
    | none => pulled
    | some dst_obj =>
      if (match dst_obj with | Obj.Rope => true | _ => false) || can_pull_next then
        let rf := remaining_force - dst_obj.mass
        if rf < 0 then pulled
        else
          pull_scan g direction fuel coords rf
            (match dst_obj with | Obj.Rope => true | _ => false) (pulled + 1)
      else pulled

/-- Consequences of a move attempt, the `MoveAttemptConsequences` struct of the
source (the `i32` lengths of the source are counts of loop iterations, hence `Nat`). -/
structure MoveAttemptConsequences where
  success : Bool
  non_pulled_length : Nat
  pulled_length : Nat
  final_interaction : Option InteractionConsequences
deriving DecidableEq

/-- Resolution of a move attempt, `LogicalWorld::what_would_happen_if_try_to_move`
of the source: the forward push walk, the backward interaction scan on a force
block, and the independent pull walk. -/
def what_would_happen_if_try_to_move (lw : LogicalWorld) (mover_coords direction : IVec2)
    (force : Int) : MoveAttemptConsequences :=
  let fuel := force.toNat + 2
  let pulled := pull_scan lw.grid direction fuel mover_coords force false 0
  match push_scan lw.grid direction fuel mover_coords force 0 with
  | PushScanOutcome.reachedFree len => ⟨true, len, pulled, none⟩
  | PushScanOutcome.reachedEdge len => ⟨false, len, pulled, none⟩
  | PushScanOutcome.forceBlocked len blockCoords =>
    let r := back_scan lw.grid direction len len blockCoords
    ⟨r.1, r.2.2, pulled, r.2.1⟩

/-- Logical events, the `LogicalEvent` enum of the source. -/
inductive LogicalEvent where
  | Move (from_c to_c : IVec2)
  | FailToMove (from_c to_c : IVec2)
  | Hit (atCoords : IVec2) (damages : Int)
  | Killed (obj : Obj) (atCoords : IVec2) (damages : Int)
  | Mined (obj : Obj) (atCoords : IVec2)
  | DoorOpenedWithKey (key_obj door_obj : Obj) (from_c to_c : IVec2)
  | Healed (obj : Obj) (atCoords : IVec2)
  | RedoGained (obj : Obj) (atCoords : IVec2)
  | Exit (obj : Obj) (from_c to_c : IVec2)
  | MoveInto (obj : Obj) (from_c to_c : IVec2)
  | Stomped (obj : Obj) (atCoords : IVec2)
deriving DecidableEq

/-- Logical transition, the `LogicalTransition` struct of the source. -/
structure LogicalTransition where
  logical_events : List LogicalEvent
  resulting_lw : LogicalWorld
deriving DecidableEq

/-- Direction rewrite of a moved `Fish` in the source's successful push loop:
the pushed object replaces its `direction` field with the push direction
(every other object is moved unchanged). -/
def fish_adjust (direction : IVec2) : Option Obj → Option Obj
  | some (Obj.Fish _ tok) => some (Obj.Fish direction tok)
  | x => x

/-- Append an event built from an object when that object is present (the
`unwrap` + event-push idiom of the source; the `unwrap`ed option is provably
present in the source at each use). -/
def appendObjEvent (o : Option Obj) (mk : Obj → LogicalEvent) (ev : List LogicalEvent) :
    List LogicalEvent :=
  match o with
  | some x => ev ++ [mk x]
  | none => ev

/-- Successful-push application loop of `LogicalWorld::try_to_move`: walking the
chain front to back, each tile's object is swapped with the carried previous
object (a moved `Fish` takes the push direction), and a `Move` event is
recorded except for the object about to exit through an `Exit`. Returns the
final coordinates, the carried object, the grid and the events. -/
def push_apply (direction : IVec2) (fi : Option InteractionConsequences) :
    Nat → IVec2 → Option Obj → List (IVec2 × Tile) → List LogicalEvent →
    IVec2 × Option Obj × List (IVec2 × Tile) × List LogicalEvent
  | 0, coords, prev, g, ev => (coords, prev, g, ev)
  | n + 1, coords, prev, g, ev =>
    let taken := objAtList g coords
    let g2 := setObjAt g coords prev
    let prev2 := fish_adjust direction taken
    let is_exiting :=
      match fi with
      | some (InteractionConsequences.Exit a) => decide (a = coords + direction)
      | _ => false
    let ev2 :=
      if prev2.isSome && !is_exiting then ev ++ [LogicalEvent.Move coords (coords + direction)]
      else ev
    push_apply direction fi n (coords + direction) prev2 g2 ev2

/-- Failed-push event loop of `LogicalWorld::try_to_move`: every tile of the
chain records a `FailToMove` event and nothing moves. Returns the coordinates
one past the chain and the events. -/
def fail_events (direction : IVec2) :
    Nat → IVec2 → List LogicalEvent → IVec2 × List LogicalEvent
  | 0, coords, ev => (coords, ev)
  | n + 1, coords, ev =>
    fail_events direction n (coords + direction)
      (ev ++ [LogicalEvent.FailToMove coords (coords + direction)])

/-- Pull application loop of `LogicalWorld::try_to_move`: each pulled object
moves one tile in the push direction, front to back. -/
def pull_apply (direction : IVec2) :
    Nat → IVec2 → List (IVec2 × Tile) → List LogicalEvent →
    List (IVec2 × Tile) × List LogicalEvent
  | 0, _, g, ev => (g, ev)
  | n + 1, coords0, g, ev =>
    let coords := coords0 - direction
    let o := objAtList g coords
    let g2 := setObjAt g coords none
    let g3 := setObjAt g2 (coords + direction) o
    pull_apply direction n coords g3 (ev ++ [LogicalEvent.Move coords (coords + direction)])

/-- Heal mutation of the source's `Heal` interaction: a `Bunny`'s hp is set to
its max hp (the source `unreachable!`s on any other object; no other object
can be healed, and the model leaves such an object unchanged). -/
def heal_obj : Obj → Obj
  | Obj.Bunny _ mx => Obj.Bunny mx mx
  | o => o

/-- Shroomer spawn step at the end of `LogicalWorld::try_to_move`: a `Shroomer`
that vacated its tile and was not adjacent to a `Shroom` in the original world
leaves a token-less `Shroom` on its old tile. -/
def shroom_spawn (orig g : List (IVec2 × Tile)) (mover_coords : IVec2) :
    List (IVec2 × Tile) :=
  if (match objAtList orig mover_coords with | some (Obj.Shroomer _ _) => true | _ => false)
      && (objAtList g mover_coords).isNone
      && !(four_directions.any fun d =>
            match objAtList orig (mover_coords + d) with
            | some (Obj.Shroom _) => true
            | _ => false) then
    setObjAt g mover_coords (some (Obj.Shroom false))
  else g

/-- Clamp of the source (`i32::clamp`). -/
def clampInt (v lo hi : Int) : Int :=
  if v < lo then lo else if v > hi then hi else v

/-- Move resolution, `LogicalWorld::try_to_move` of the source: resolve the
attempt, then apply either the successful push (chain shift, terminal
interaction, pulls, shroomer spawn) or the failure (fail events and the
possible non-lethal hit), producing the resulting world and the event log.
The two `unreachable!` arms of the source (a `NonLethalHit` under success and
a move-allowing interaction under failure) are modelled as leaving the world
unchanged; they are proved unreachable. -/
def try_to_move (lw : LogicalWorld) (mover_coords direction : IVec2) (force : Int) :
    LogicalTransition :=
  let M := what_would_happen_if_try_to_move lw mover_coords direction force
  if M.success then
    let r := push_apply direction M.final_interaction M.non_pulled_length mover_coords none
      lw.grid []
    let coordsEnd := r.1
    let prev1 := r.2.1
    let g1 := r.2.2.1
    let ev1 := r.2.2.2
    let taken := objAtList g1 coordsEnd
    let g2 := setObjAt g1 coordsEnd prev1
    let step :=
      match M.final_interaction with
      | some (InteractionConsequences.Kill d) =>
        (g2, lw.redo_count, appendObjEvent taken (fun o => LogicalEvent.Killed o coordsEnd d) ev1)
      | some InteractionConsequences.StompShroom =>
        (g2, lw.redo_count, appendObjEvent taken (fun o => LogicalEvent.Stomped o coordsEnd) ev1)
      | some InteractionConsequences.Mine =>
        (g2, lw.redo_count, appendObjEvent taken (fun o => LogicalEvent.Mined o coordsEnd) ev1)
      | some InteractionConsequences.KeyOpenDoor =>
        (setObjAt g2 coordsEnd none, lw.redo_count,
          match objAtList g2 coordsEnd, taken with
          | some k, some dobj =>
            ev1 ++ [LogicalEvent.DoorOpenedWithKey k dobj (coordsEnd - direction) coordsEnd]
          | _, _ => ev1)
      | some (InteractionConsequences.Exit _) =>
        (setObjAt g2 coordsEnd taken, lw.redo_count,
          appendObjEvent (objAtList g2 coordsEnd)
            (fun o => LogicalEvent.Exit o (coordsEnd - direction) coordsEnd) ev1)
      | some InteractionConsequences.Heal =>
        let g3 := modifyObjAt g2 coordsEnd heal_obj
        (g3, lw.redo_count,
          appendObjEvent (objAtList g3 coordsEnd) (fun o => LogicalEvent.Healed o coordsEnd) ev1)
      | some InteractionConsequences.GainARedo =>
        (g2, clampInt (lw.redo_count + 1) 0 lw.max_redo_count,
          appendObjEvent taken (fun o => LogicalEvent.RedoGained o coordsEnd) ev1)
      | some (InteractionConsequences.NonLethalHit _) => (g2, lw.redo_count, ev1)
      | none => (g2, lw.redo_count, ev1)
    let pr := pull_apply direction M.pulled_length mover_coords step.1 step.2.2
    let g5 := shroom_spawn lw.grid pr.1 mover_coords
    ⟨pr.2, ⟨g5, step.2.1, lw.max_redo_count⟩⟩
  else
    let fr := fail_events direction M.non_pulled_length mover_coords []
    let coordsEnd := fr.1
    let step :=
      match M.final_interaction with
      | some (InteractionConsequences.NonLethalHit d) =>
        (modifyObjAt lw.grid coordsEnd (fun o => o.take_damage d),
          fr.2 ++ [LogicalEvent.Hit coordsEnd d])
      | _ => (lw.grid, fr.2)
    let g5 := shroom_spawn lw.grid step.1 mover_coords
    ⟨step.2, ⟨g5, lw.redo_count, lw.max_redo_count⟩⟩

/-- Self-sacrifice attack, `LogicalWorld::sacrifice_hit` of the source: the
hitter vacates its tile, deals its damages to the adjacent target, which is
removed when its hp drops to zero or below. The source `unwrap`s the hitter,
the target and the target's hp; callers only reach this with a present hitter
and a hittable target, and the model leaves the world part untouched where
the source would panic. -/
def sacrifice_hit (lw : LogicalWorld) (hitter_coords direction : IVec2) : LogicalTransition :=
  match objAtList lw.grid hitter_coords with
  | none => ⟨[], lw⟩
  | some hitter_obj =>
    let g1 := setObjAt lw.grid hitter_coords none
    let target_coords := hitter_coords + direction
    let damages := hitter_obj.damages
    let ev1 := [LogicalEvent.MoveInto hitter_obj hitter_coords target_coords]
    match objAtList g1 target_coords with
    | none => ⟨ev1, ⟨g1, lw.redo_count, lw.max_redo_count⟩⟩
    | some target_obj =>
      let damaged := target_obj.take_damage damages
      let g2 := modifyObjAt g1 target_coords (fun o => o.take_damage damages)
      match damaged.hp with
      | some hpv =>
        if hpv ≤ 0 then
          ⟨ev1 ++ [LogicalEvent.Killed damaged target_coords damages],
            ⟨setObjAt g2 target_coords none, lw.redo_count, lw.max_redo_count⟩⟩
        else
          ⟨ev1 ++ [LogicalEvent.Hit target_coords damages],
            ⟨g2, lw.redo_count, lw.max_redo_count⟩⟩
      | none =>
        ⟨ev1 ++ [LogicalEvent.Hit target_coords damages],
          ⟨g2, lw.redo_count, lw.max_redo_count⟩⟩

/-- Squared Euclidean distance between two integer points. The source compares
`f32` distances; all points compared lie within a few tiles of each other, so
their squared distances are small integers computed exactly in `f32`, and
correctly-rounded square root preserves their order, making the squared
integer comparisons below exact translations. -/
def dist_sq (a b : IVec2) : Int := (a.x - b.x) ^ 2 + (a.y - b.y) ^ 2

/-- Vision blocking of an optional object. -/
def blocksVisionOpt : Option Obj → Bool
  | some o => o.blocks_vision
  | none => false

/-- Visibility recomputation, `LogicalWorld::updated_visibility` of the source,
with the floating-point ray-march of the first pass abstracted as the `ray`
oracle (the claims proved below hold for every oracle). Radius tests
`dist <= 6.5` on integer points are the exact tests `dist_sq <= 42`, and the
`dist == 0.0` test is `dist_sq = 0`. -/
def updated_visibility (ray : IVec2 → IVec2 → Bool) (lw : LogicalWorld) : LogicalWorld :=
  match lw.player_coords with
  | none => { lw with grid := mapVisible (fun _ _ => true) lw.grid }
  | some p =>
    if four_directions.any (fun d =>
        match objAtList lw.grid (p + d) with
        | some Obj.VisionGem => true
        | _ => false) then
      { lw with grid := mapVisible (fun c _ => decide (dist_sq p c ≤ 42)) lw.grid }
    else
      let g1 := mapVisible
        (fun c _ => if dist_sq p c = 0 then true else decide (dist_sq p c ≤ 42) && ray p c)
        lw.grid
      let g2 := mapVisible (fun c t =>
        if decide (dist_sq p c ≤ 42)
            && (match lookupTile g1 c with
                | some t0 => !t0.visible && blocksVisionOpt t0.obj
                | none => false)
            && four_directions.any (fun d =>
                match lookupTile g1 (c + d) with
                | some t1 => t1.visible && !blocksVisionOpt t1.obj
                | none => false) then
          true
        else t.visible) g1
      let g3 := mapVisible (fun c t =>
        if decide (dist_sq p c ≤ 42)
            && (match lookupTile g2 c with
                | some t0 => !t0.visible && blocksVisionOpt t0.obj
                | none => false)
            && four_directions.any (fun d =>
                let a := c + d
                let oa := c + d.perp
                let corner := c + d + d.perp
                (match lookupTile g2 a with
                  | some t1 => t1.visible && blocksVisionOpt t1.obj
                  | none => false)
                && (match lookupTile g2 oa with
                  | some t1 => t1.visible && blocksVisionOpt t1.obj
                  | none => false)
                && decide (dist_sq corner p < min (dist_sq c p) (min (dist_sq a p) (dist_sq oa p)))
                && (match lookupTile g2 corner with
                  | some t1 => t1.visible && !blocksVisionOpt t1.obj
                  | none => false)) then
          true
        else t.visible) g2
      { lw with grid := g3 }

/-- Visibility update of a transition, `LogicalTransition::updated_visibility`
of the source. -/
def transition_updated_visibility (ray : IVec2 → IVec2 → Bool) (t : LogicalTransition) :
    LogicalTransition :=
  { t with resulting_lw := updated_visibility ray t.resulting_lw }

/-- Straight-line vision-block walk of the source's `ai_decision`: step from the
agent in `direction` until the target (not blocked) or a vision-blocking
object (blocked) is met. The source loop reaches the target after exactly the
axis distance many steps (the direction points straight at the target); the
fuel is that distance, so it is never exhausted, and exhaustion yields the
not-blocked answer. -/
def vision_blocked_walk (g : List (IVec2 × Tile)) (direction target : IVec2) :
    Nat → IVec2 → Bool
  | 0, _ => false
  | fuel + 1, coords0 =>
    let coords := coords0 + direction
    if coords = target then false
    else if blocksVisionOpt (objAtList g coords) then true
    else vision_blocked_walk g direction target fuel coords

/-- Generic chase policy, `LogicalWorld::ai_decision` of the source: move one
step along a shared axis toward the player, refusing to bump into another
enemy or to chase through a vision-blocking object. -/
def ai_decision (lw : LogicalWorld) (agent_coords : IVec2) : Option IVec2 :=
  match lw.player_coords with
  | none => none
  | some target_coords =>
    let dirOpt : Option IVec2 :=
      if agent_coords.x = target_coords.x then
        some (if target_coords.y < agent_coords.y then ⟨0, -1⟩ else ⟨0, 1⟩)
      else if agent_coords.y = target_coords.y then
        some (if target_coords.x < agent_coords.x then ⟨-1, 0⟩ else ⟨1, 0⟩)
      else none
    match dirOpt with
    | none => none
    | some direction =>
      let dst := agent_coords + direction
      if (match objAtList lw.grid dst with
          | some o => o.is_enemy
          | none => false) then none
      else
        let steps := (agent_coords.x - target_coords.x).natAbs
          + (agent_coords.y - target_coords.y).natAbs
        if vision_blocked_walk lw.grid direction target_coords steps agent_coords then none
        else some direction

/-- Shroom policy, `LogicalWorld::shroom_ai_decision` of the source: attack the
player exactly when adjacent. -/
def shroom_ai_decision (lw : LogicalWorld) (agent_coords : IVec2) : Option IVec2 :=
  match lw.player_coords with
  | none => none
  | some target_coords =>
    let direction := target_coords - agent_coords
    if direction.x.natAbs + direction.y.natAbs = 1 then some direction else none

/-- Fish policy, `LogicalWorld::fish_ai_decision` of the source: keep swimming
in the facing direction while the tile ahead is the player or empty-and-present,
otherwise turn around. -/
def fish_ai_decision (lw : LogicalWorld) (agent_coords : IVec2) : Option IVec2 :=
  match objAtList lw.grid agent_coords with
  | some (Obj.Fish direction _) =>
    (match lw.player_coords with
     | none => none
     | some target_coords =>
       let dst_coords := agent_coords + direction
       let noting_ahead := (lookupTile lw.grid dst_coords).isSome
         && (objAtList lw.grid dst_coords).isNone
       if target_coords = dst_coords || noting_ahead then some direction
       else some (-direction))
  | _ => none

/-- One agent turn, `LogicalWorld::handle_move_for_one_agent` of the source:
scan the (shuffled) grid keys for the first object holding a move token,
consume its token, ask its per-kind policy for a direction and resolve the
resulting sacrifice or move. The shuffled key list of the source is the
explicit `keys` parameter here; the claims hold for every key list covering
the grid. -/
def handle_move_for_one_agent (ray : IVec2 → IVec2 → Bool) (keys : List IVec2)
    (lw : LogicalWorld) : Option LogicalTransition :=
  match keys with
  | [] => none
  | c :: rest =>
    match objAtList lw.grid c with
    | some o =>
      if o.has_move_token then
        let res_lw : LogicalWorld :=
          { lw with grid := modifyObjAt lw.grid c Obj.take_move_token }
        let is_shroom :=
          match objAtList res_lw.grid c with | some (Obj.Shroom _) => true | _ => false
        let is_shroomer :=
          match objAtList res_lw.grid c with | some (Obj.Shroomer _ _) => true | _ => false
        let is_fish :=
          match objAtList res_lw.grid c with | some (Obj.Fish _ _) => true | _ => false
        let direction :=
          if is_shroom then shroom_ai_decision lw c
          else if is_fish then fish_ai_decision lw c
          else ai_decision lw c
        some (match direction with
          | some d =>
            let target_is_bunny :=
              match objAtList res_lw.grid (c + d) with
              | some (Obj.Bunny _ _) => true
              | _ => false
            if is_shroom || (is_shroomer && target_is_bunny) then
              transition_updated_visibility ray (sacrifice_hit res_lw c d)
            else
              transition_updated_visibility ray (try_to_move res_lw c d 2)
          | none => ⟨[], res_lw⟩)
      else handle_move_for_one_agent ray rest lw
    | none => handle_move_for_one_agent ray rest lw

/-- Move-token weight of an optional object: 1 when it holds a move token. -/
def tokN : Option Obj → Nat
  | some o => if o.has_move_token then 1 else 0
  | none => 0

/-- Number of grid entries whose object holds a move token. -/
def countTokens : List (IVec2 × Tile) → Nat
  | [] => 0
  | e :: r => tokN e.2.obj + countTokens r

/-- Keys of a world's grid, in entry order (one possible outcome of the
source's shuffle of `grid.keys()`). -/
def grid_keys (lw : LogicalWorld) : List IVec2 := lw.grid.map (fun e => e.1)

/-- Repeatedly replace the world by the resulting world of
`handle_move_for_one_agent` (scanning keys in grid order), up to `n` calls,
stopping at the first `none`; models the driver loop that drains agent turns. -/
def run_agents (ray : IVec2 → IVec2 → Bool) : Nat → LogicalWorld → LogicalWorld
  | 0, lw => lw
  | n + 1, lw =>
    match handle_move_for_one_agent ray (grid_keys lw) lw with
    | none => lw
    | some t => run_agents ray n t.resulting_lw

/-- One resolver-level step for redo-invariant sequences: either a move
resolution (`try_to_move`) or a sacrifice attack (`sacrifice_hit`). -/
inductive ResolvedStep where
  | move (mover_coords direction : IVec2) (force : Int)
  | sacrifice (hitter_coords direction : IVec2)

/-- Resulting world of one resolved step. -/
def applyStep (lw : LogicalWorld) : ResolvedStep → LogicalWorld
  | ResolvedStep.move c d f => (try_to_move lw c d f).resulting_lw
  | ResolvedStep.sacrifice c d => (sacrifice_hit lw c d).resulting_lw

/-- Resulting world of a sequence of resolved steps. -/
def applySteps (steps : List ResolvedStep) (lw : LogicalWorld) : LogicalWorld :=
  steps.foldl applyStep lw

/-- World of the push scenario: a Bunny at the origin, a Rock to its right, a free floor tile behind the Rock. -/
def world_push_rock : LogicalWorld :=
  ⟨[(⟨0, 0⟩, Tile.objTile (Obj.Bunny 5 5)), (⟨1, 0⟩, Tile.objTile Obj.Rock),
    (⟨2, 0⟩, Tile.floor)], 3, 9⟩

/-- World with a Shroom in front of the Bunny and a Slime behind the Shroom. -/
def world_shroom_slime : LogicalWorld :=
  ⟨[(⟨0, 0⟩, Tile.objTile (Obj.Bunny 5 5)), (⟨1, 0⟩, Tile.objTile (Obj.Shroom false)),
    (⟨2, 0⟩, Tile.objTile (Obj.Slime 5 false))], 3, 9⟩

/-- World with a RedoHeart in front of the Bunny and a Wall behind the RedoHeart. -/
def world_redo_heart : LogicalWorld :=
  ⟨[(⟨0, 0⟩, Tile.objTile (Obj.Bunny 5 5)), (⟨1, 0⟩, Tile.objTile Obj.RedoHeart),
    (⟨2, 0⟩, Tile.objTile Obj.Wall)], 3, 9⟩

/-- World with only a wall blocking the Bunny. -/
def world_wall : LogicalWorld :=
  ⟨[(⟨0, 0⟩, Tile.objTile (Obj.Bunny 5 5)), (⟨1, 0⟩, Tile.objTile Obj.Wall)], 3, 9⟩

/-- World with a Fish facing down in front of the Bunny and a free tile behind it. -/
def world_fish : LogicalWorld :=
  ⟨[(⟨0, 0⟩, Tile.objTile (Obj.Bunny 5 5)), (⟨1, 0⟩, Tile.objTile (Obj.Fish ⟨0, -1⟩ false)),
    (⟨2, 0⟩, Tile.floor)], 3, 9⟩

/-- World with only the Bunny on it. -/
def world_bunny : LogicalWorld := ⟨[(⟨0, 0⟩, Tile.objTile (Obj.Bunny 5 5))], 3, 9⟩

/-- Token presence of the object at a coordinate. -/
def hasTokenAt (lw : LogicalWorld) (c : IVec2) : Bool :=
  match objAtList lw.grid c with
  | some o => o.has_move_token
  | none => false

/-- World with the Bunny and a token-holding Slime. -/
def world_slime : LogicalWorld :=
  ⟨[(⟨0, 0⟩, Tile.objTile (Obj.Bunny 5 5)), (⟨1, 0⟩, Tile.objTile (Obj.Slime 5 true))], 3, 9⟩

theorem Obj.one_le_mass (o : Obj) : 1 ≤ o.mass := by
  cases o <;> simp [Obj.mass]

theorem back_scan_success_eq (g : List (IVec2 × Tile)) (d : IVec2) (len : Nat) :
    ∀ (k : Nat) (c : IVec2),
      (back_scan g d len k c).1 =
        (match (back_scan g d len k c).2.1 with
          | some i => i.allows_move
          | none => false) := by
  intro k
  induction k with
  | zero => intro c; simp [back_scan]
  | succ n ih =>
    intro c
    cases h1 : objAtList g (c - d) with
    | none => simp only [back_scan, h1]; exact ih (c - d)
    | some s =>
      cases h2 : objAtList g c with
      | none => simp only [back_scan, h1, h2]; exact ih (c - d)
      | some t =>
        cases h3 : what_would_happen_if_interact s t c with
        | none => simp only [back_scan, h1, h2, h3]; exact ih (c - d)
        | some i => simp only [back_scan, h1, h2, h3]

/-- Characterization of a successful attempt with no final interaction: it is
exactly a forward scan reaching a free tile. -/
theorem success_none_iff_reachedFree (lw : LogicalWorld) (c d : IVec2) (f : Int) :
    ((what_would_happen_if_try_to_move lw c d f).success = true ∧
        (what_would_happen_if_try_to_move lw c d f).final_interaction = none) ↔
      ∃ L, push_scan lw.grid d (f.toNat + 2) c f 0 = PushScanOutcome.reachedFree L := by
  cases hp : push_scan lw.grid d (f.toNat + 2) c f 0 with
  | reachedFree L => simp [what_would_happen_if_try_to_move, hp]
  | reachedEdge L => simp [what_would_happen_if_try_to_move, hp]
  | forceBlocked L bc =>
    simp only [what_would_happen_if_try_to_move, hp]
    constructor
    · rintro ⟨hs, hn⟩
      rw [back_scan_success_eq, hn] at hs
      simp at hs
    · rintro ⟨L2, hL⟩
      simp at hL

theorem push_scan_success_mono (g : List (IVec2 × Tile)) (d : IVec2) :
    ∀ (fuel fuel' : Nat) (c : IVec2) (r r' : Int) (len L : Nat),
      fuel ≤ fuel' → r ≤ r' →
      push_scan g d fuel c r len = PushScanOutcome.reachedFree L →
      push_scan g d fuel' c r' len = PushScanOutcome.reachedFree L := by
  intro fuel
  induction fuel with
  | zero => intro fuel' c r r' len L _ _ h; simp [push_scan] at h
  | succ n ih =>
    intro fuel' c r r' len L hf hr h
    obtain ⟨m, rfl⟩ : ∃ m, fuel' = m + 1 := ⟨fuel' - 1, by omega⟩
    cases hlt : lookupTile g (c + d) with
    | none => simp [push_scan, hlt] at h
    | some tile =>
      cases hob : tile.obj with
      | none => simp only [push_scan, hlt, hob] at h ⊢; exact h
      | some o =>
        by_cases hneg : r - o.mass < 0
        · simp only [push_scan, hlt, hob] at h
          rw [if_pos hneg] at h
          exact absurd h (by simp)
        · simp only [push_scan, hlt, hob] at h
          rw [if_neg hneg] at h
          simp only [push_scan, hlt, hob]
          rw [if_neg (show ¬ r' - o.mass < 0 by omega)]
          exact ih m (c + d) (r - o.mass) (r' - o.mass) (len + 1) L (by omega) (by omega) h

theorem final_interaction_allows_move (lw : LogicalWorld) (c d : IVec2) (f : Int)
    (i : InteractionConsequences)
    (h : (what_would_happen_if_try_to_move lw c d f).final_interaction = some i) :
    (what_would_happen_if_try_to_move lw c d f).success = i.allows_move := by
  cases hp : push_scan lw.grid d (f.toNat + 2) c f 0 with
  | reachedFree L => simp [what_would_happen_if_try_to_move, hp] at h
  | reachedEdge L => simp [what_would_happen_if_try_to_move, hp] at h
  | forceBlocked L bc =>
    simp only [what_would_happen_if_try_to_move, hp] at h ⊢
    rw [back_scan_success_eq, h]

theorem interact_of_hp (src dst : Obj) (c : IVec2) (h : Int) (hhp : dst.hp = some h) :
    what_would_happen_if_interact src dst c =
      some (if h ≤ src.damages then InteractionConsequences.Kill src.damages
            else InteractionConsequences.NonLethalHit src.damages) := by
  cases dst <;> simp [Obj.hp] at hhp <;> subst hhp <;>
    simp [what_would_happen_if_interact, is_exit_obj, pickaxe_wall, key_door,
      bunny_heart, bunny_redo_heart, is_shroom_obj, Obj.hp]

theorem take_damage_hp (dst : Obj) (d h : Int) (hhp : dst.hp = some h) :
    (dst.take_damage d).hp = some (h - d) := by
  cases dst <;> simp [Obj.hp] at hhp <;> subst hhp <;> simp [Obj.take_damage, Obj.hp]

/-- C1: for every interaction whose destination has hit points, damage at least
equal to the remaining hp yields a `Kill` (which allows the move), and damage
strictly below the remaining hp yields a `NonLethalHit` (which blocks the move)
leaving the destination alive with its hp reduced by the damage; in particular
damage exactly equal to hp kills and damage one less leaves a living target. -/
theorem claim_c1_kill_boundary (src dst : Obj) (c : IVec2) (h : Int)
    (hhp : dst.hp = some h) :
    (h ≤ src.damages →
      what_would_happen_if_interact src dst c =
        some (InteractionConsequences.Kill src.damages) ∧
      (InteractionConsequences.Kill src.damages).allows_move = true) ∧
    (src.damages < h →
      what_would_happen_if_interact src dst c =
        some (InteractionConsequences.NonLethalHit src.damages) ∧
      (InteractionConsequences.NonLethalHit src.damages).allows_move = false ∧
      (dst.take_damage src.damages).hp = some (h - src.damages) ∧
      0 < h - src.damages) := by
  refine ⟨fun hcmp => ⟨?_, rfl⟩, fun hcmp => ⟨?_, rfl, take_damage_hp dst src.damages h hhp, by omega⟩⟩
  · rw [interact_of_hp src dst c h hhp, if_pos hcmp]
  · rw [interact_of_hp src dst c h hhp, if_neg (by omega)]

/-- C3: the interaction table of the source equals the specification's
first-match-wins priority list Exit, Mine, KeyOpenDoor, Heal, GainARedo,
StompShroom, then Kill or NonLethalHit on a destination with hit points, and a
pair matching no clause yields no interaction. -/
theorem claim_c3_interaction_priority (src dst : Obj) (c : IVec2) :
    what_would_happen_if_interact src dst c = interact_spec src dst c := by
  cases src <;> cases dst <;> rfl

/-- C4 amended: for a fixed world, mover and direction, if the attempt with
force f succeeds with no final interaction (the chain clears into a free
tile), then the attempt with any force f' at least f also succeeds. The
original unconditional claim is false, see the counterexample. -/
theorem claim_c4_force_monotonicity_amended (lw : LogicalWorld) (mover d : IVec2) (f f' : Int)
    (hff : f ≤ f')
    (hs : (what_would_happen_if_try_to_move lw mover d f).success = true)
    (hfi : (what_would_happen_if_try_to_move lw mover d f).final_interaction = none) :
    (what_would_happen_if_try_to_move lw mover d f').success = true := by
  obtain ⟨L, hL⟩ := (success_none_iff_reachedFree lw mover d f).mp ⟨hs, hfi⟩
  have hL2 : push_scan lw.grid d (f'.toNat + 2) mover f' 0 = PushScanOutcome.reachedFree L :=
    push_scan_success_mono lw.grid d (f.toNat + 2) (f'.toNat + 2) mover f f' 0 L
      (by omega) hff hL
  exact ((success_none_iff_reachedFree lw mover d f').mpr ⟨L, hL2⟩).1

/-- C4 counterexample: success is not monotone in force. With a Shroom in
front of the Bunny and a Slime behind it, force 2 blocks at the Shroom and the
StompShroom interaction lets the move succeed, while force 12 pushes through
to the Slime and the resulting NonLethalHit makes the move fail. -/
theorem claim_c4_counterexample :
    (2 : Int) ≤ 12 ∧
    (what_would_happen_if_try_to_move world_shroom_slime ⟨0, 0⟩ ⟨1, 0⟩ 2).success = true ∧
    (what_would_happen_if_try_to_move world_shroom_slime ⟨0, 0⟩ ⟨1, 0⟩ 12).success = false := by
  refine ⟨by norm_num, by decide, by decide⟩

/-- C4 witness: the amended monotonicity at the Rock-pushing scenario with forces 2 and 3. -/
theorem claim_c4_force_monotonicity_amended_witness :
    (2 : Int) ≤ 3 ∧
    (what_would_happen_if_try_to_move world_push_rock ⟨0, 0⟩ ⟨1, 0⟩ 2).success = true ∧
    (what_would_happen_if_try_to_move world_push_rock ⟨0, 0⟩ ⟨1, 0⟩ 2).final_interaction = none ∧
    (what_would_happen_if_try_to_move world_push_rock ⟨0, 0⟩ ⟨1, 0⟩ 3).success = true :=
  ⟨by norm_num, by decide, by decide,
    claim_c4_force_monotonicity_amended world_push_rock ⟨0, 0⟩ ⟨1, 0⟩ 2 3 (by norm_num)
      (by decide) (by decide)⟩

/-- C6 amended: in the world with the Bunny at the origin pushing a Rock at
(1,0) into the free tile (2,0) with force 2, the push succeeds and the event
list is exactly two Move events: the Bunny's own move from (0,0) to (1,0)
followed by the Rock's move from (1,0) to (2,0). -/
theorem claim_c6_push_rock_scenario_amended :
    (what_would_happen_if_try_to_move world_push_rock ⟨0, 0⟩ ⟨1, 0⟩ 2).success = true ∧
    (try_to_move world_push_rock ⟨0, 0⟩ ⟨1, 0⟩ 2).logical_events =
      [LogicalEvent.Move ⟨0, 0⟩ ⟨1, 0⟩, LogicalEvent.Move ⟨1, 0⟩ ⟨2, 0⟩] := by decide

/-- C6 counterexample: the event list of the scenario is not the single Move
event claimed (the mover's own Move event is also reported). -/
theorem claim_c6_counterexample :
    ¬ (try_to_move world_push_rock ⟨0, 0⟩ ⟨1, 0⟩ 2).logical_events =
        [LogicalEvent.Move ⟨1, 0⟩ ⟨2, 0⟩] := by decide

/-- C8: for every move resolution, a final interaction forces the success flag
to equal that interaction's move permission, so the source's unreachable arms
(a NonLethalHit under success, and a move-allowing interaction under failure)
are never executed. -/
theorem claim_c8_unreachable_guards (lw : LogicalWorld) (c d : IVec2) (f : Int)
    (i : InteractionConsequences)
    (h : (what_would_happen_if_try_to_move lw c d f).final_interaction = some i) :
    (what_would_happen_if_try_to_move lw c d f).success = i.allows_move :=
  final_interaction_allows_move lw c d f i h

/-- C8 witness: the blocked attempt at force 12 ends in a NonLethalHit with failure. -/
theorem claim_c8_unreachable_guards_witness :
    (what_would_happen_if_try_to_move world_shroom_slime ⟨0, 0⟩ ⟨1, 0⟩ 12).final_interaction =
      some (InteractionConsequences.NonLethalHit 1) ∧
    (what_would_happen_if_try_to_move world_shroom_slime ⟨0, 0⟩ ⟨1, 0⟩ 12).success =
      (InteractionConsequences.NonLethalHit 1).allows_move :=
  ⟨by decide,
    claim_c8_unreachable_guards world_shroom_slime ⟨0, 0⟩ ⟨1, 0⟩ 12
      (InteractionConsequences.NonLethalHit 1) (by decide)⟩

/-- C1 witness: the kill boundary instantiated at a Rock hitting a Slime with 5 hp. -/
theorem claim_c1_kill_boundary_witness :
    ((Obj.Slime 5 false).hp = some 5) ∧
    (((5 : Int) ≤ Obj.Rock.damages →
      what_would_happen_if_interact Obj.Rock (Obj.Slime 5 false) ⟨0, 0⟩ =
        some (InteractionConsequences.Kill Obj.Rock.damages) ∧
      (InteractionConsequences.Kill Obj.Rock.damages).allows_move = true) ∧
    (Obj.Rock.damages < 5 →
      what_would_happen_if_interact Obj.Rock (Obj.Slime 5 false) ⟨0, 0⟩ =
        some (InteractionConsequences.NonLethalHit Obj.Rock.damages) ∧
      (InteractionConsequences.NonLethalHit Obj.Rock.damages).allows_move = false ∧
      ((Obj.Slime 5 false).take_damage Obj.Rock.damages).hp = some (5 - Obj.Rock.damages) ∧
      0 < 5 - Obj.Rock.damages)) :=
  ⟨rfl, claim_c1_kill_boundary Obj.Rock (Obj.Slime 5 false) ⟨0, 0⟩ 5 rfl⟩

theorem IVec2.add_def (a b : IVec2) : a + b = ⟨a.x + b.x, a.y + b.y⟩ := rfl

theorem IVec2.sub_def (a b : IVec2) : a - b = ⟨a.x - b.x, a.y - b.y⟩ := rfl

theorem IVec2.neg_def (a : IVec2) : -a = ⟨-a.x, -a.y⟩ := rfl

theorem along_zero (c d : IVec2) : c.along 0 d = c := by
  cases c; simp [IVec2.along]

theorem along_succ (c d : IVec2) (n : Int) : (c + d).along n d = c.along (n + 1) d := by
  simp only [IVec2.along, IVec2.add_def, IVec2.mk.injEq]
  constructor <;> ring

theorem along_pred (c d : IVec2) (n : Int) : (c - d).along n d = c.along (n - 1) d := by
  simp only [IVec2.along, IVec2.sub_def, IVec2.mk.injEq]
  constructor <;> ring

theorem along_inj (c d : IVec2) (hd : d ∈ four_directions) (a b : Int)
    (h : c.along a d = c.along b d) : a = b := by
  fin_cases hd <;>
    · simp only [IVec2.along, IVec2.mk.injEq] at h
      omega

theorem lookupTile_setObjAt (g : List (IVec2 × Tile)) (c : IVec2) (o : Option Obj) (c' : IVec2) :
    lookupTile (setObjAt g c o) c' =
      if c' = c then (lookupTile g c).map (fun t => { t with obj := o })
      else lookupTile g c' := by
  induction g with
  | nil => simp [setObjAt, lookupTile]
  | cons e r ih =>
    simp only [setObjAt]
    by_cases he : e.1 = c
    · rw [if_pos he]
      by_cases he' : c' = c
      · subst he'; simp [lookupTile, he]
      · have hcc : ¬ e.1 = c' := by rw [he]; exact fun hh => he' hh.symm
        rw [if_neg he']
        simp [lookupTile, hcc]
    · rw [if_neg he]
      by_cases he' : e.1 = c'
      · have hne : ¬ c' = c := fun hh => he (hh ▸ he')
        simp [lookupTile, he', hne]
      · simp [lookupTile, he, he', ih]

theorem lookupTile_modifyObjAt (g : List (IVec2 × Tile)) (c : IVec2) (f : Obj → Obj)
    (c' : IVec2) :
    lookupTile (modifyObjAt g c f) c' =
      if c' = c then (lookupTile g c).map (fun t => { t with obj := t.obj.map f })
      else lookupTile g c' := by
  induction g with
  | nil => simp [modifyObjAt, lookupTile]
  | cons e r ih =>
    simp only [modifyObjAt]
    by_cases he : e.1 = c
    · rw [if_pos he]
      by_cases he' : c' = c
      · subst he'; simp [lookupTile, he]
      · have hcc : ¬ e.1 = c' := by rw [he]; exact fun hh => he' hh.symm
        rw [if_neg he']
        simp [lookupTile, hcc]
    · rw [if_neg he]
      by_cases he' : e.1 = c'
      · have hne : ¬ c' = c := fun hh => he (hh ▸ he')
        simp [lookupTile, he', hne]
      · simp [lookupTile, he, he', ih]

theorem lookupTile_mapVisible (f : IVec2 → Tile → Bool) (g : List (IVec2 × Tile)) (c : IVec2) :
    lookupTile (mapVisible f g) c =
      (lookupTile g c).map (fun t => { t with visible := f c t }) := by
  induction g with
  | nil => simp [mapVisible, lookupTile]
  | cons e r ih =>
    by_cases he : e.1 = c <;> simp_all [mapVisible, lookupTile]

theorem push_scan_len_mono (g : List (IVec2 × Tile)) (d : IVec2) :
    ∀ (fuel : Nat) (c : IVec2) (r : Int) (len : Nat),
      len ≤ (push_scan g d fuel c r len).length := by
  intro fuel
  induction fuel with
  | zero => intro c r len; simp [push_scan, PushScanOutcome.length]
  | succ n ih =>
    intro c r len
    cases hlt : lookupTile g (c + d) with
    | none => simp [push_scan, hlt, PushScanOutcome.length]
    | some tile =>
      cases hob : tile.obj with
      | none => simp [push_scan, hlt, hob, PushScanOutcome.length]
      | some o =>
        by_cases hneg : r - o.mass < 0
        · simp only [push_scan, hlt, hob]
          rw [if_pos hneg]
          simp [PushScanOutcome.length]
        · simp only [push_scan, hlt, hob]
          rw [if_neg hneg]
          have := ih (c + d) (r - o.mass) (len + 1)
          omega

theorem push_scan_len_pos (g : List (IVec2 × Tile)) (d : IVec2) (fuel : Nat) (c : IVec2)
    (r : Int) (len : Nat) (hf : 1 ≤ fuel) :
    len + 1 ≤ (push_scan g d fuel c r len).length := by
  obtain ⟨n, rfl⟩ : ∃ n, fuel = n + 1 := ⟨fuel - 1, by omega⟩
  cases hlt : lookupTile g (c + d) with
  | none => simp [push_scan, hlt, PushScanOutcome.length]
  | some tile =>
    cases hob : tile.obj with
    | none => simp [push_scan, hlt, hob, PushScanOutcome.length]
    | some o =>
      by_cases hneg : r - o.mass < 0
      · simp only [push_scan, hlt, hob]
        rw [if_pos hneg]
        simp [PushScanOutcome.length]
      · simp only [push_scan, hlt, hob]
        rw [if_neg hneg]
        have := push_scan_len_mono g d n (c + d) (r - o.mass) (len + 1)
        omega

theorem back_scan_npl_pos (g : List (IVec2 × Tile)) (d : IVec2) (len : Nat)
    (hlen : 1 ≤ len) :
    ∀ (k : Nat) (c : IVec2), 1 ≤ (back_scan g d len k c).2.2 := by
  intro k
  induction k with
  | zero => intro c; simpa [back_scan] using hlen
  | succ n ih =>
    intro c
    cases h1 : objAtList g (c - d) with
    | none => simp only [back_scan, h1]; exact ih (c - d)
    | some s =>
      cases h2 : objAtList g c with
      | none => simp only [back_scan, h1, h2]; exact ih (c - d)
      | some t =>
        cases h3 : what_would_happen_if_interact s t c with
        | none => simp only [back_scan, h1, h2, h3]; exact ih (c - d)
        | some i => simp [back_scan, h1, h2, h3]

/-- The attempted chain always contains at least the mover's tile. -/
theorem non_pulled_length_pos (lw : LogicalWorld) (c d : IVec2) (f : Int) :
    1 ≤ (what_would_happen_if_try_to_move lw c d f).non_pulled_length := by
  cases hp : push_scan lw.grid d (f.toNat + 2) c f 0 with
  | reachedFree L =>
    have := push_scan_len_pos lw.grid d (f.toNat + 2) c f 0 (by omega)
    rw [hp] at this
    simpa [what_would_happen_if_try_to_move, hp, PushScanOutcome.length] using this
  | reachedEdge L =>
    have := push_scan_len_pos lw.grid d (f.toNat + 2) c f 0 (by omega)
    rw [hp] at this
    simpa [what_would_happen_if_try_to_move, hp, PushScanOutcome.length] using this
  | forceBlocked L bc =>
    have hL : 1 ≤ L := by
      have := push_scan_len_pos lw.grid d (f.toNat + 2) c f 0 (by omega)
      rw [hp] at this
      simpa [PushScanOutcome.length] using this
    simpa [what_would_happen_if_try_to_move, hp] using
      back_scan_npl_pos lw.grid d L hL L bc

theorem fail_events_fst (d : IVec2) :
    ∀ (n : Nat) (c : IVec2) (ev : List LogicalEvent),
      (fail_events d n c ev).1 = c.along n d := by
  intro n
  induction n with
  | zero => intro c ev; simp [fail_events, along_zero]
  | succ m ih =>
    intro c ev
    rw [fail_events, ih (c + d), along_succ]
    norm_num

/-- The shroomer-spawn step is the identity whenever the mover tile holds the
same object as in the original world (in particular when the push failed). -/
theorem shroom_spawn_no_spawn (orig g : List (IVec2 × Tile)) (m : IVec2)
    (hsame : objAtList g m = objAtList orig m) :
    shroom_spawn orig g m = g := by
  unfold shroom_spawn
  cases ho : objAtList orig m with
  | none => simp [ho]
  | some o => cases o <;> simp [ho, hsame]

/-- C2: when a move attempt fails, the resulting world is identical to the
input world on every tile of the attempted chain (the spec's domain of
directions, the four unit vectors, is assumed). -/
theorem claim_c2_failure_frame (lw : LogicalWorld) (mover d : IVec2) (f : Int)
    (hd : d ∈ four_directions)
    (hfail : (what_would_happen_if_try_to_move lw mover d f).success = false)
    (k : Nat) (hk : k < (what_would_happen_if_try_to_move lw mover d f).non_pulled_length) :
    lookupTile (try_to_move lw mover d f).resulting_lw.grid (mover.along k d) =
      lookupTile lw.grid (mover.along k d) := by
  have hnpl : 1 ≤ (what_would_happen_if_try_to_move lw mover d f).non_pulled_length :=
    non_pulled_length_pos lw mover d f
  have hne : ∀ (j : Nat),
      j < (what_would_happen_if_try_to_move lw mover d f).non_pulled_length →
      mover.along j d ≠
        mover.along ((what_would_happen_if_try_to_move lw mover d f).non_pulled_length : Int) d := by
    intro j hj heq
    have := along_inj mover d hd j
      ((what_would_happen_if_try_to_move lw mover d f).non_pulled_length : Int) heq
    omega
  simp only [try_to_move, hfail, Bool.false_eq_true, if_false]
  rcases hfi : (what_would_happen_if_try_to_move lw mover d f).final_interaction with _ | i
  · simp only [hfi]
    rw [shroom_spawn_no_spawn lw.grid lw.grid mover rfl]
  · cases i <;> simp only [hfi]
    case NonLethalHit dm =>
      rw [fail_events_fst]
      have hmv : objAtList
          (modifyObjAt lw.grid
            (mover.along ((what_would_happen_if_try_to_move lw mover d f).non_pulled_length : Int) d)
            (fun o => o.take_damage dm)) mover = objAtList lw.grid mover := by
        unfold objAtList
        rw [lookupTile_modifyObjAt,
          if_neg (by simpa [along_zero] using hne 0 (by omega))]
      rw [shroom_spawn_no_spawn _ _ _ hmv, lookupTile_modifyObjAt, if_neg (hne k hk)]
    all_goals rw [shroom_spawn_no_spawn lw.grid lw.grid mover rfl]

theorem clampInt_mem (v lo hi : Int) (h : lo ≤ hi) :
    lo ≤ clampInt v lo hi ∧ clampInt v lo hi ≤ hi := by
  unfold clampInt
  split_ifs <;> omega

/-- The redo counter of a move resolution is either untouched or clamped into
range, and the cap is untouched. -/
theorem try_to_move_redo (lw : LogicalWorld) (c d : IVec2) (f : Int) :
    ((try_to_move lw c d f).resulting_lw.redo_count = lw.redo_count ∨
      (try_to_move lw c d f).resulting_lw.redo_count =
        clampInt (lw.redo_count + 1) 0 lw.max_redo_count) ∧
    (try_to_move lw c d f).resulting_lw.max_redo_count = lw.max_redo_count := by
  cases hs : (what_would_happen_if_try_to_move lw c d f).success with
  | false => simp [try_to_move, hs]
  | true =>
    rcases hfi : (what_would_happen_if_try_to_move lw c d f).final_interaction with _ | i
    · simp [try_to_move, hs, hfi]
    · cases i <;> simp [try_to_move, hs, hfi]

/-- The redo counter and its cap are untouched by a sacrifice attack. -/
theorem sacrifice_hit_redo (lw : LogicalWorld) (c d : IVec2) :
    (sacrifice_hit lw c d).resulting_lw.redo_count = lw.redo_count ∧
    (sacrifice_hit lw c d).resulting_lw.max_redo_count = lw.max_redo_count := by
  unfold sacrifice_hit
  cases ho : objAtList lw.grid c with
  | none => simp
  | some hobj =>
    cases ho2 : objAtList (setObjAt lw.grid c none) (c + d) with
    | none => simp [ho2]
    | some tobj =>
      cases hhp : (tobj.take_damage hobj.damages).hp with
      | none => simp [ho2, hhp]
      | some hpv => by_cases hle : hpv ≤ 0 <;> simp [ho2, hhp, hle]

theorem applyStep_redo_invariant (lw : LogicalWorld) (s : ResolvedStep)
    (h0 : 0 ≤ lw.redo_count) (h1 : lw.redo_count ≤ lw.max_redo_count) :
    (0 ≤ (applyStep lw s).redo_count ∧
      (applyStep lw s).redo_count ≤ (applyStep lw s).max_redo_count) := by
  cases s with
  | move c d f =>
    obtain ⟨hor, hmax⟩ := try_to_move_redo lw c d f
    have hc := clampInt_mem (lw.redo_count + 1) 0 lw.max_redo_count (by omega)
    simp only [applyStep]
    rw [hmax]
    rcases hor with h | h <;> rw [h] <;> omega
  | sacrifice c d =>
    obtain ⟨hr, hmax⟩ := sacrifice_hit_redo lw c d
    simp only [applyStep]
    rw [hr, hmax]
    exact ⟨h0, h1⟩

/-- C7: starting from any world whose redo counter lies in the closed range
from 0 to its cap, any sequence of resolved transitions (move resolutions and
sacrifice attacks) keeps the counter in that range, and a newly created world
has cap 9 and counter 3. -/
theorem claim_c7_redo_clamp (steps : List ResolvedStep) (lw : LogicalWorld)
    (h0 : 0 ≤ lw.redo_count) (h1 : lw.redo_count ≤ lw.max_redo_count) :
    (0 ≤ (applySteps steps lw).redo_count ∧
      (applySteps steps lw).redo_count ≤ (applySteps steps lw).max_redo_count) ∧
    LogicalWorld.new_empty.max_redo_count = 9 ∧
    LogicalWorld.new_empty.redo_count = 3 := by
  refine ⟨?_, rfl, rfl⟩
  induction steps generalizing lw with
  | nil => exact ⟨h0, h1⟩
  | cons s rest ih =>
    have hs := applyStep_redo_invariant lw s h0 h1
    simpa [applySteps] using ih (applyStep lw s) hs.1 hs.2

/-- C7 witness: consuming a RedoHeart starting from the fresh counters. -/
theorem claim_c7_redo_clamp_witness :
    (0 : Int) ≤ world_redo_heart.redo_count ∧
    world_redo_heart.redo_count ≤ world_redo_heart.max_redo_count ∧
    ((0 ≤ (applySteps [ResolvedStep.move ⟨0, 0⟩ ⟨1, 0⟩ 2] world_redo_heart).redo_count ∧
      (applySteps [ResolvedStep.move ⟨0, 0⟩ ⟨1, 0⟩ 2] world_redo_heart).redo_count ≤
        (applySteps [ResolvedStep.move ⟨0, 0⟩ ⟨1, 0⟩ 2] world_redo_heart).max_redo_count) ∧
     LogicalWorld.new_empty.max_redo_count = 9 ∧
     LogicalWorld.new_empty.redo_count = 3) :=
  ⟨by decide, by decide,
    claim_c7_redo_clamp [ResolvedStep.move ⟨0, 0⟩ ⟨1, 0⟩ 2] world_redo_heart
      (by decide) (by decide)⟩

/-- C2 witness: the Bunny failing to push a Wall leaves its own tile untouched. -/
theorem claim_c2_failure_frame_witness :
    (⟨1, 0⟩ : IVec2) ∈ four_directions ∧
    (what_would_happen_if_try_to_move world_wall ⟨0, 0⟩ ⟨1, 0⟩ 2).success = false ∧
    0 < (what_would_happen_if_try_to_move world_wall ⟨0, 0⟩ ⟨1, 0⟩ 2).non_pulled_length ∧
    lookupTile (try_to_move world_wall ⟨0, 0⟩ ⟨1, 0⟩ 2).resulting_lw.grid
        (IVec2.along ⟨0, 0⟩ (0 : Nat) ⟨1, 0⟩) =
      lookupTile world_wall.grid (IVec2.along ⟨0, 0⟩ (0 : Nat) ⟨1, 0⟩) :=
  ⟨by decide, by decide, by decide,
    claim_c2_failure_frame world_wall ⟨0, 0⟩ ⟨1, 0⟩ 2 (by decide) (by decide) 0 (by decide)⟩

theorem along_one (c d : IVec2) : c.along 1 d = c + d := by
  simp [IVec2.along, IVec2.add_def]

theorem sub_add_cancel_vec (c d : IVec2) : (c - d) + d = c := by
  cases c; cases d; simp [IVec2.add_def, IVec2.sub_def]

theorem along_ne_of_ne (c d : IVec2) (hd : d ∈ four_directions) (a b : Int) (hab : a ≠ b) :
    c.along a d ≠ c.along b d :=
  fun h => hab (along_inj c d hd a b h)

theorem push_apply_succ_eq (d : IVec2) (fi : Option InteractionConsequences) (m : Nat)
    (c : IVec2) (prev : Option Obj) (g : List (IVec2 × Tile)) (ev : List LogicalEvent) :
    push_apply d fi (m + 1) c prev g ev =
      push_apply d fi m (c + d) (fish_adjust d (objAtList g c)) (setObjAt g c prev)
        (if (fish_adjust d (objAtList g c)).isSome &&
              !(match fi with
                | some (InteractionConsequences.Exit a) => decide (a = c + d)
                | _ => false) then ev ++ [LogicalEvent.Move c (c + d)] else ev) := rfl

theorem push_apply_fst (d : IVec2) (fi : Option InteractionConsequences) :
    ∀ (n : Nat) (c : IVec2) (prev : Option Obj) (g : List (IVec2 × Tile))
      (ev : List LogicalEvent),
      (push_apply d fi n c prev g ev).1 = c.along n d := by
  intro n
  induction n with
  | zero => intro c prev g ev; simp [push_apply, along_zero]
  | succ m ih =>
    intro c prev g ev
    rw [push_apply_succ_eq, ih, along_succ]
    norm_num

theorem push_apply_grid_frame (d : IVec2) (fi : Option InteractionConsequences) :
    ∀ (n : Nat) (c : IVec2) (prev : Option Obj) (g : List (IVec2 × Tile))
      (ev : List LogicalEvent) (x : IVec2),
      (∀ i : Nat, i < n → x ≠ c.along i d) →
      lookupTile (push_apply d fi n c prev g ev).2.2.1 x = lookupTile g x := by
  intro n
  induction n with
  | zero => intro c prev g ev x _; rfl
  | succ m ih =>
    intro c prev g ev x h
    rw [push_apply_succ_eq]
    rw [ih (c + d) _ _ _ x (fun i hi => by
      rw [along_succ]
      have := h (i + 1) (by omega)
      rwa [show ((i + 1 : Nat) : Int) = (i : Int) + 1 by push_cast; ring] at this)]
    rw [lookupTile_setObjAt, if_neg (by simpa [along_zero] using h 0 (by omega))]

theorem push_apply_grid_at (d : IVec2) (fi : Option InteractionConsequences)
    (hd : d ∈ four_directions) :
    ∀ (n : Nat) (c : IVec2) (prev : Option Obj) (g : List (IVec2 × Tile))
      (ev : List LogicalEvent), 1 ≤ n →
      lookupTile (push_apply d fi n c prev g ev).2.2.1 c =
        (lookupTile g c).map (fun t => { t with obj := prev }) := by
  intro n c prev g ev hn
  obtain ⟨m, rfl⟩ : ∃ m, n = m + 1 := ⟨n - 1, by omega⟩
  rw [push_apply_succ_eq]
  rw [push_apply_grid_frame d fi m (c + d) _ _ _ c (fun i _ => by
    rw [along_succ]
    nth_rewrite 1 [show c = c.along 0 d from (along_zero c d).symm]
    exact along_ne_of_ne c d hd 0 (i + 1) (by omega))]
  rw [lookupTile_setObjAt, if_pos rfl]

theorem push_apply_grid_shift (d : IVec2) (fi : Option InteractionConsequences)
    (hd : d ∈ four_directions) :
    ∀ (j n : Nat) (c : IVec2) (prev : Option Obj) (g : List (IVec2 × Tile))
      (ev : List LogicalEvent), j + 2 ≤ n →
      lookupTile (push_apply d fi n c prev g ev).2.2.1 (c.along ((j : Int) + 1) d) =
        (lookupTile g (c.along ((j : Int) + 1) d)).map
          (fun t => { t with obj := fish_adjust d (objAtList g (c.along j d)) }) := by
  intro j
  induction j with
  | zero =>
    intro n c prev g ev hn
    obtain ⟨m, rfl⟩ : ∃ m, n = m + 1 := ⟨n - 1, by omega⟩
    rw [push_apply_succ_eq]
    rw [show c.along ((0 : Nat) + 1) d = c + d by rw [← along_one]; norm_num]
    rw [push_apply_grid_at d fi hd m (c + d) _ _ _ (by omega)]
    rw [lookupTile_setObjAt, if_neg (by
      rw [show c + d = c.along 1 d from (along_one c d).symm]
      nth_rewrite 2 [show c = c.along 0 d from (along_zero c d).symm]
      exact along_ne_of_ne c d hd 1 0 (by omega))]
    simp [along_zero]
  | succ j' ih =>
    intro n c prev g ev hn
    obtain ⟨m, rfl⟩ : ∃ m, n = m + 1 := ⟨n - 1, by omega⟩
    rw [push_apply_succ_eq]
    have hcast : ((j' + 1 : Nat) : Int) + 1 = ((j' : Int) + 1) + 1 := by push_cast; ring
    rw [hcast]
    rw [show c.along (((j' : Int) + 1) + 1) d = (c + d).along ((j' : Int) + 1) d from
      (along_succ c d ((j' : Int) + 1)).symm]
    rw [ih m (c + d) _ _ _ (by omega)]
    rw [along_succ, along_succ]
    rw [lookupTile_setObjAt, if_neg (by
      nth_rewrite 2 [show c = c.along 0 d from (along_zero c d).symm]
      exact along_ne_of_ne c d hd ((j' : Int) + 1 + 1) 0 (by omega))]
    unfold objAtList
    rw [lookupTile_setObjAt, if_neg (by
      nth_rewrite 2 [show c = c.along 0 d from (along_zero c d).symm]
      exact along_ne_of_ne c d hd ((j' : Int) + 1) 0 (by omega))]
    rw [show ((j' + 1 : Nat) : Int) = (j' : Int) + 1 by push_cast; ring]

theorem push_apply_prev_succ (d : IVec2) (fi : Option InteractionConsequences)
    (hd : d ∈ four_directions) :
    ∀ (n : Nat) (c : IVec2) (prev : Option Obj) (g : List (IVec2 × Tile))
      (ev : List LogicalEvent),
      (push_apply d fi (n + 1) c prev g ev).2.1 =
        fish_adjust d (objAtList g (c.along (n : Int) d)) := by
  intro n
  induction n with
  | zero =>
    intro c prev g ev
    rw [push_apply_succ_eq]
    simp [push_apply, along_zero]
  | succ m ih =>
    intro c prev g ev
    rw [push_apply_succ_eq, ih (c + d)]
    rw [along_succ]
    unfold objAtList
    rw [lookupTile_setObjAt, if_neg (by
      nth_rewrite 2 [show c = c.along 0 d from (along_zero c d).symm]
      refine along_ne_of_ne c d hd ((m : Int) + 1) 0 (by omega))]
    norm_num

/-- Tiles along a scan that reached a free tile all exist in the grid. -/
theorem push_scan_tiles_present (g : List (IVec2 × Tile)) (d : IVec2) :
    ∀ (fuel : Nat) (c : IVec2) (r : Int) (len L : Nat),
      push_scan g d fuel c r len = PushScanOutcome.reachedFree L →
      ∀ (j : Nat), 1 ≤ j → len + j ≤ L → (lookupTile g (c.along j d)).isSome := by
  intro fuel
  induction fuel with
  | zero => intro c r len L h; simp [push_scan] at h
  | succ n ih =>
    intro c r len L h j hj hjL
    cases hlt : lookupTile g (c + d) with
    | none => simp [push_scan, hlt] at h
    | some tile =>
      cases hob : tile.obj with
      | none =>
        simp only [push_scan, hlt, hob] at h
        have hL : L = len + 1 := by
          cases h
          rfl
        have hj1 : j = 1 := by omega
        subst hj1
        simp [along_one, hlt]
      | some o =>
        simp only [push_scan, hlt, hob] at h
        by_cases hneg : r - o.mass < 0
        · rw [if_pos hneg] at h
          exact absurd h (by simp)
        · rw [if_neg hneg] at h
          rcases Nat.lt_or_ge j 2 with hj2 | hj2
          · have hj1 : j = 1 := by omega
            subst hj1
            simp [along_one, hlt]
          · obtain ⟨j', rfl⟩ : ∃ j', j = j' + 1 := ⟨j - 1, by omega⟩
            have := ih (c + d) (r - o.mass) (len + 1) L h j' (by omega) (by omega)
            rwa [along_succ, show ((j' : Int) + 1) = ((j' + 1 : Nat) : Int) by push_cast; ring]
              at this

theorem pull_apply_succ_eq (d : IVec2) (m : Nat) (c : IVec2) (g : List (IVec2 × Tile))
    (ev : List LogicalEvent) :
    pull_apply d (m + 1) c g ev =
      pull_apply d m (c - d)
        (setObjAt (setObjAt g (c - d) none) ((c - d) + d) (objAtList g (c - d)))
        (ev ++ [LogicalEvent.Move (c - d) ((c - d) + d)]) := rfl

theorem pull_apply_frame (d : IVec2) :
    ∀ (n : Nat) (c : IVec2) (g : List (IVec2 × Tile)) (ev : List LogicalEvent) (x : IVec2),
      (∀ i : Int, i ≤ 0 → x ≠ c.along i d) →
      lookupTile (pull_apply d n c g ev).1 x = lookupTile g x := by
  intro n
  induction n with
  | zero => intro c g ev x _; rfl
  | succ m ih =>
    intro c g ev x h
    rw [pull_apply_succ_eq]
    rw [ih (c - d) _ _ x (fun i hi => by
      rw [along_pred]
      exact h (i - 1) (by omega))]
    rw [lookupTile_setObjAt, if_neg (by
      rw [sub_add_cancel_vec]
      simpa [along_zero] using h 0 (by omega))]
    rw [lookupTile_setObjAt, if_neg (by
      rw [show c - d = c.along (-1) d by
        rw [show c - d = (c - d).along 0 d from (along_zero (c - d) d).symm, along_pred]
        norm_num]
      exact h (-1) (by omega))]

theorem shroom_spawn_lookup_ne (orig g : List (IVec2 × Tile)) (m x : IVec2) (hx : x ≠ m) :
    lookupTile (shroom_spawn orig g m) x = lookupTile g x := by
  unfold shroom_spawn
  split_ifs with hcond
  · rw [lookupTile_setObjAt, if_neg hx]
  · rfl

/-- C5 amended: in every successful interaction-free push whose chain contains
a Fish, the Fish ends one tile further along the push direction with its
direction field set to the push direction (not retained) and its move token
preserved. The original retention claim is false, see the counterexample. -/
theorem claim_c5_fish_direction_amended (lw : LogicalWorld) (mover d : IVec2) (f : Int)
    (hd : d ∈ four_directions)
    (hs : (what_would_happen_if_try_to_move lw mover d f).success = true)
    (hfi : (what_would_happen_if_try_to_move lw mover d f).final_interaction = none)
    (k : Nat) (hk : k < (what_would_happen_if_try_to_move lw mover d f).non_pulled_length)
    (dir0 : IVec2) (tok : Bool)
    (hfish : objAtList lw.grid (mover.along k d) = some (Obj.Fish dir0 tok)) :
    objAtList (try_to_move lw mover d f).resulting_lw.grid
        (mover.along ((k : Int) + 1) d) =
      some (Obj.Fish d tok) := by
  obtain ⟨L, hL⟩ := (success_none_iff_reachedFree lw mover d f).mp ⟨hs, hfi⟩
  have hn : (what_would_happen_if_try_to_move lw mover d f).non_pulled_length = L := by
    simp [what_would_happen_if_try_to_move, hL]
  rw [hn] at hk
  simp only [try_to_move, hs, hfi, hn, if_true]
  unfold objAtList
  rw [shroom_spawn_lookup_ne _ _ _ _ (by
    nth_rewrite 2 [show mover = mover.along 0 d from (along_zero mover d).symm]
    exact along_ne_of_ne mover d hd ((k : Int) + 1) 0 (by omega))]
  rw [pull_apply_frame d _ mover _ _ _ (fun i hi =>
    along_ne_of_ne mover d hd ((k : Int) + 1) i (by omega))]
  rw [push_apply_fst]
  rcases Nat.lt_or_ge (k + 1) L with hlt | hge
  · -- strictly inside the chain
    rw [lookupTile_setObjAt, if_neg (along_ne_of_ne mover d hd ((k : Int) + 1) L (by omega))]
    rw [push_apply_grid_shift d none hd k L mover none lw.grid [] (by omega)]
    obtain ⟨t, ht⟩ : ∃ t, lookupTile lw.grid (mover.along ((k : Int) + 1) d) = some t := by
      have := push_scan_tiles_present lw.grid d (f.toNat + 2) mover f 0 L hL (k + 1)
        (by omega) (by omega)
      rw [show (((k + 1 : Nat)) : Int) = (k : Int) + 1 by push_cast; ring] at this
      exact Option.isSome_iff_exists.mp this
    rw [ht, hfish]
    rfl
  · -- the last object of the chain
    have hkL : k + 1 = L := by omega
    rw [lookupTile_setObjAt, if_pos (by rw [← hkL]; push_cast; ring_nf)]
    rw [push_apply_grid_frame d none L mover none lw.grid [] (mover.along (L : Int) d)
      (fun i hi => along_ne_of_ne mover d hd (L : Int) (i : Int) (by omega))]
    obtain ⟨m, rfl⟩ : ∃ m, L = m + 1 := ⟨L - 1, by omega⟩
    have hfish2 : objAtList lw.grid (mover.along (m : Int) d) = some (Obj.Fish dir0 tok) := by
      rw [show ((m : Nat) : Int) = (k : Int) by omega]
      exact hfish
    rw [push_apply_prev_succ d none hd m mover none lw.grid [], hfish2]
    obtain ⟨t, ht⟩ : ∃ t, lookupTile lw.grid (mover.along (((m + 1 : Nat)) : Int) d) = some t := by
      have := push_scan_tiles_present lw.grid d (f.toNat + 2) mover f 0 (m + 1) hL (m + 1)
        (by omega) (by omega)
      exact Option.isSome_iff_exists.mp this
    rw [ht]
    rfl

/-- C5 counterexample: a pushed Fish does not retain its direction field. The
Fish facing down at (1,0), pushed right, ends at (2,0) facing right. -/
theorem claim_c5_counterexample :
    objAtList world_fish.grid ⟨1, 0⟩ = some (Obj.Fish ⟨0, -1⟩ false) ∧
    (what_would_happen_if_try_to_move world_fish ⟨0, 0⟩ ⟨1, 0⟩ 2).success = true ∧
    objAtList (try_to_move world_fish ⟨0, 0⟩ ⟨1, 0⟩ 2).resulting_lw.grid ⟨2, 0⟩ =
      some (Obj.Fish ⟨1, 0⟩ false) ∧
    ¬ objAtList (try_to_move world_fish ⟨0, 0⟩ ⟨1, 0⟩ 2).resulting_lw.grid ⟨2, 0⟩ =
        some (Obj.Fish ⟨0, -1⟩ false) := by decide

/-- C5 witness: the pushed Fish of the counterexample world, through the amended theorem. -/
theorem claim_c5_fish_direction_amended_witness :
    (⟨1, 0⟩ : IVec2) ∈ four_directions ∧
    (what_would_happen_if_try_to_move world_fish ⟨0, 0⟩ ⟨1, 0⟩ 2).success = true ∧
    (what_would_happen_if_try_to_move world_fish ⟨0, 0⟩ ⟨1, 0⟩ 2).final_interaction = none ∧
    1 < (what_would_happen_if_try_to_move world_fish ⟨0, 0⟩ ⟨1, 0⟩ 2).non_pulled_length ∧
    objAtList world_fish.grid (IVec2.along ⟨0, 0⟩ ((1 : Nat) : Int) ⟨1, 0⟩) =
      some (Obj.Fish ⟨0, -1⟩ false) ∧
    objAtList (try_to_move world_fish ⟨0, 0⟩ ⟨1, 0⟩ 2).resulting_lw.grid
        (IVec2.along ⟨0, 0⟩ (((1 : Nat) : Int) + 1) ⟨1, 0⟩) =
      some (Obj.Fish ⟨1, 0⟩ false) :=
  ⟨by decide, by decide, by decide, by decide, by decide,
    claim_c5_fish_direction_amended world_fish ⟨0, 0⟩ ⟨1, 0⟩ 2 (by decide) (by decide)
      (by decide) 1 (by decide) ⟨0, -1⟩ false (by decide)⟩

theorem lookup_of_mem (g : List (IVec2 × Tile)) (c : IVec2) (t : Tile)
    (h : (c, t) ∈ g) : ∃ t2, lookupTile g c = some t2 := by
  induction g with
  | nil => simp at h
  | cons e r ih =>
    by_cases he : e.1 = c
    · exact ⟨e.2, by simp [lookupTile, he]⟩
    · rcases List.mem_cons.mp h with rfl | hr
      · simp at he
      · simpa [lookupTile, he] using ih hr

theorem player_coords_lookup (lw : LogicalWorld) (p : IVec2)
    (h : lw.player_coords = some p) : ∃ t, lookupTile lw.grid p = some t := by
  obtain ⟨e, hmem, he⟩ := List.exists_of_findSome?_eq_some h
  have : e.1 = p := by
    cases hobj : e.2.obj with
    | none => rw [hobj] at he; simp at he
    | some o =>
      cases o <;> rw [hobj] at he <;> simp at he
      exact he
  subst this
  exact lookup_of_mem lw.grid e.1 e.2 (by simpa using hmem)

theorem lookup_mapVisible_true (f : IVec2 → Tile → Bool) (g : List (IVec2 × Tile))
    (c : IVec2) (t : Tile) (ht : lookupTile g c = some t) :
    lookupTile (mapVisible f g) c = some { t with visible := f c t } := by
  rw [lookupTile_mapVisible, ht]
  rfl

/-- C9: for every world containing a player, after the visibility
recomputation the tile at the player's own coordinates is visible, whatever
the ray-march oracle decides for other tiles and also under the vision-gem
shortcut. -/
theorem claim_c9_player_tile_visible (ray : IVec2 → IVec2 → Bool) (lw : LogicalWorld)
    (p : IVec2) (hp : lw.player_coords = some p) :
    ∃ t, lookupTile (updated_visibility ray lw).grid p = some t ∧ t.visible = true := by
  obtain ⟨t0, ht0⟩ := player_coords_lookup lw p hp
  unfold updated_visibility
  rw [hp]
  dsimp only
  have hzero : dist_sq p p = 0 := by simp [dist_sq]
  split_ifs with hgem
  · dsimp only
    refine ⟨_, lookup_mapVisible_true _ lw.grid p t0 ht0, ?_⟩
    simp [hzero]
  · dsimp only
    refine ⟨_, lookup_mapVisible_true _ _ p _
      (lookup_mapVisible_true _ _ p _ (lookup_mapVisible_true _ lw.grid p t0 ht0)), ?_⟩
    simp [hzero]

/-- C9 witness: a world holding only the Bunny, with an oracle that sees nothing. -/
theorem claim_c9_player_tile_visible_witness :
    world_bunny.player_coords = some ⟨0, 0⟩ ∧
    ∃ t, lookupTile (updated_visibility (fun _ _ => false) world_bunny).grid ⟨0, 0⟩ = some t ∧
      t.visible = true :=
  ⟨by decide,
    claim_c9_player_tile_visible (fun _ _ => false) world_bunny ⟨0, 0⟩ (by decide)⟩

theorem has_move_token_fish_adjust (d : IVec2) (o : Option Obj) :
    tokN (fish_adjust d o) = tokN o := by
  cases o with
  | none => rfl
  | some o => cases o <;> rfl

theorem has_move_token_take_damage (o : Obj) (dm : Int) :
    (o.take_damage dm).has_move_token = o.has_move_token := by
  cases o <;> rfl

theorem has_move_token_heal_obj (o : Obj) :
    (heal_obj o).has_move_token = o.has_move_token := by
  cases o <;> rfl

theorem has_move_token_take_move_token (o : Obj) :
    (o.take_move_token).has_move_token = false := by
  cases o <;> rfl

theorem setObjAt_lookup_none (g : List (IVec2 × Tile)) (c : IVec2) (o : Option Obj)
    (h : lookupTile g c = none) : setObjAt g c o = g := by
  induction g with
  | nil => rfl
  | cons e r ih =>
    by_cases he : e.1 = c
    · simp [lookupTile, he] at h
    · simp only [lookupTile, he, if_false] at h
      simp [setObjAt, he, ih h]

theorem modifyObjAt_lookup_none (g : List (IVec2 × Tile)) (c : IVec2) (f : Obj → Obj)
    (h : lookupTile g c = none) : modifyObjAt g c f = g := by
  induction g with
  | nil => rfl
  | cons e r ih =>
    by_cases he : e.1 = c
    · simp [lookupTile, he] at h
    · simp only [lookupTile, he, if_false] at h
      simp [modifyObjAt, he, ih h]

theorem countTokens_setObjAt (g : List (IVec2 × Tile)) (c : IVec2) (o : Option Obj)
    (t : Tile) (h : lookupTile g c = some t) :
    countTokens (setObjAt g c o) + tokN t.obj = countTokens g + tokN o := by
  induction g with
  | nil => simp [lookupTile] at h
  | cons e r ih =>
    by_cases he : e.1 = c
    · simp only [lookupTile, he, if_pos] at h
      cases h
      simp [setObjAt, he, countTokens]
      omega
    · simp only [lookupTile, he, if_false] at h
      simp only [setObjAt, he, if_false, countTokens]
      have := ih h
      omega

theorem countTokens_modifyObjAt (g : List (IVec2 × Tile)) (c : IVec2) (f : Obj → Obj)
    (t : Tile) (h : lookupTile g c = some t) :
    countTokens (modifyObjAt g c f) + tokN t.obj = countTokens g + tokN (t.obj.map f) := by
  induction g with
  | nil => simp [lookupTile] at h
  | cons e r ih =>
    by_cases he : e.1 = c
    · simp only [lookupTile, he, if_pos] at h
      cases h
      simp [modifyObjAt, he, countTokens]
      omega
    · simp only [lookupTile, he, if_false] at h
      simp only [modifyObjAt, he, if_false, countTokens]
      have := ih h
      omega

theorem countTokens_setObjAt_le (g : List (IVec2 × Tile)) (c : IVec2) (o : Option Obj) :
    countTokens (setObjAt g c o) ≤ countTokens g + tokN o := by
  cases h : lookupTile g c with
  | none => rw [setObjAt_lookup_none g c o h]; omega
  | some t => have := countTokens_setObjAt g c o t h; omega

theorem countTokens_modifyObjAt_tokpres (g : List (IVec2 × Tile)) (c : IVec2) (f : Obj → Obj)
    (hf : ∀ o, (f o).has_move_token = o.has_move_token) :
    countTokens (modifyObjAt g c f) = countTokens g := by
  cases h : lookupTile g c with
  | none => rw [modifyObjAt_lookup_none g c f h]
  | some t =>
    have := countTokens_modifyObjAt g c f t h
    have htok : tokN (t.obj.map f) = tokN t.obj := by
      cases t.obj with
      | none => rfl
      | some o => simp [tokN, hf o]
    omega

theorem countTokens_mapVisible (f : IVec2 → Tile → Bool) (g : List (IVec2 × Tile)) :
    countTokens (mapVisible f g) = countTokens g := by
  induction g with
  | nil => rfl
  | cons e r ih =>
    simp only [mapVisible, List.map_cons, countTokens] at ih ⊢
    omega

theorem countTokens_shroom_spawn_le (orig g : List (IVec2 × Tile)) (m : IVec2) :
    countTokens (shroom_spawn orig g m) ≤ countTokens g := by
  unfold shroom_spawn
  split_ifs with hcond
  · have := countTokens_setObjAt_le g m (some (Obj.Shroom false))
    simpa [tokN, Obj.has_move_token] using this
  · exact le_refl _

theorem objAtList_eq_of_lookup (g : List (IVec2 × Tile)) (c : IVec2) (t : Tile)
    (h : lookupTile g c = some t) : objAtList g c = t.obj := by
  unfold objAtList
  rw [h]
  rfl

theorem objAtList_eq_none_of_lookup (g : List (IVec2 × Tile)) (c : IVec2)
    (h : lookupTile g c = none) : objAtList g c = none := by
  unfold objAtList
  rw [h]
  rfl

theorem push_apply_count (d : IVec2) (fi : Option InteractionConsequences) :
    ∀ (n : Nat) (c : IVec2) (prev : Option Obj) (g : List (IVec2 × Tile))
      (ev : List LogicalEvent),
      countTokens (push_apply d fi n c prev g ev).2.2.1 +
          tokN (push_apply d fi n c prev g ev).2.1 ≤
        countTokens g + tokN prev := by
  intro n
  induction n with
  | zero => intro c prev g ev; exact le_refl _
  | succ m ih =>
    intro c prev g ev
    rw [push_apply_succ_eq]
    cases hl : lookupTile g c with
    | none =>
      rw [setObjAt_lookup_none g c prev hl, objAtList_eq_none_of_lookup g c hl]
      refine le_trans (ih (c + d) _ _ _) ?_
      have h0 : tokN (fish_adjust d none) = 0 := rfl
      omega
    | some t =>
      rw [objAtList_eq_of_lookup g c t hl]
      refine le_trans (ih (c + d) _ _ _) ?_
      have hset := countTokens_setObjAt g c prev t hl
      have hfish := has_move_token_fish_adjust d t.obj
      omega

theorem pull_apply_count (d : IVec2) :
    ∀ (n : Nat) (c : IVec2) (g : List (IVec2 × Tile)) (ev : List LogicalEvent),
      countTokens (pull_apply d n c g ev).1 ≤ countTokens g := by
  intro n
  induction n with
  | zero => intro c g ev; exact le_refl _
  | succ m ih =>
    intro c g ev
    rw [pull_apply_succ_eq]
    refine le_trans (ih (c - d) _ _) ?_
    cases hl : lookupTile g (c - d) with
    | none =>
      rw [setObjAt_lookup_none g (c - d) none hl, objAtList_eq_none_of_lookup g (c - d) hl]
      exact countTokens_setObjAt_le g ((c - d) + d) none
    | some t =>
      rw [objAtList_eq_of_lookup g (c - d) t hl]
      have h1 := countTokens_setObjAt g (c - d) none t hl
      have h2 := countTokens_setObjAt_le (setObjAt g (c - d) none) ((c - d) + d) t.obj
      have h0 : tokN (none : Option Obj) = 0 := rfl
      omega

theorem updated_visibility_count (ray : IVec2 → IVec2 → Bool) (lw : LogicalWorld) :
    countTokens (updated_visibility ray lw).grid = countTokens lw.grid := by
  unfold updated_visibility
  cases hp : lw.player_coords with
  | none => simp [countTokens_mapVisible]
  | some p =>
    dsimp only
    split_ifs with hgem
    · simp [countTokens_mapVisible]
    · simp [countTokens_mapVisible]

theorem sacrifice_hit_count (lw : LogicalWorld) (c d : IVec2) :
    countTokens (sacrifice_hit lw c d).resulting_lw.grid ≤ countTokens lw.grid := by
  unfold sacrifice_hit
  cases ho : objAtList lw.grid c with
  | none => exact le_refl _
  | some hobj =>
    have h0 : tokN (none : Option Obj) = 0 := rfl
    have hg1 : countTokens (setObjAt lw.grid c none) ≤ countTokens lw.grid := by
      have := countTokens_setObjAt_le lw.grid c none
      omega
    have hg2 : countTokens (modifyObjAt (setObjAt lw.grid c none) (c + d)
        (fun o => o.take_damage hobj.damages)) ≤ countTokens lw.grid := by
      rw [countTokens_modifyObjAt_tokpres _ _ _
        (fun o => has_move_token_take_damage o hobj.damages)]
      exact hg1
    cases ho2 : objAtList (setObjAt lw.grid c none) (c + d) with
    | none =>
      simp only [ho2]
      exact hg1
    | some tobj =>
      cases hhp : (tobj.take_damage hobj.damages).hp with
      | none =>
        simp only [ho2, hhp]
        exact hg2
      | some hpv =>
        by_cases hle : hpv ≤ 0
        · simp only [ho2, hhp]
          rw [if_pos hle]
          dsimp only
          refine le_trans ?_ hg2
          have := countTokens_setObjAt_le (modifyObjAt (setObjAt lw.grid c none) (c + d)
            (fun o => o.take_damage hobj.damages)) (c + d) none
          omega
        · simp only [ho2, hhp]
          rw [if_neg hle]
          exact hg2

theorem setObj_push_le (d : IVec2) (fi : Option InteractionConsequences) (n : Nat) (c : IVec2)
    (g : List (IVec2 × Tile)) :
    countTokens (setObjAt (push_apply d fi n c none g []).2.2.1 (push_apply d fi n c none g []).1
        (push_apply d fi n c none g []).2.1) ≤ countTokens g := by
  refine le_trans (countTokens_setObjAt_le _ _ _) ?_
  have := push_apply_count d fi n c none g []
  have h0 : tokN (none : Option Obj) = 0 := rfl
  omega

theorem exit_swap_le (d : IVec2) (fi : Option InteractionConsequences) (n : Nat) (c : IVec2)
    (g : List (IVec2 × Tile)) :
    countTokens (setObjAt
        (setObjAt (push_apply d fi n c none g []).2.2.1 (push_apply d fi n c none g []).1
          (push_apply d fi n c none g []).2.1)
        (push_apply d fi n c none g []).1
        (objAtList (push_apply d fi n c none g []).2.2.1 (push_apply d fi n c none g []).1)) ≤
      countTokens g := by
  have hPP := push_apply_count d fi n c none g []
  have h0 : tokN (none : Option Obj) = 0 := rfl
  cases hl : lookupTile (push_apply d fi n c none g []).2.2.1 (push_apply d fi n c none g []).1 with
  | none =>
    rw [setObjAt_lookup_none _ _ _ hl, objAtList_eq_none_of_lookup _ _ hl,
      setObjAt_lookup_none _ _ _ hl]
    omega
  | some t =>
    rw [objAtList_eq_of_lookup _ _ t hl]
    have h1 := countTokens_setObjAt (push_apply d fi n c none g []).2.2.1
      (push_apply d fi n c none g []).1 (push_apply d fi n c none g []).2.1 t hl
    have h2 := countTokens_setObjAt_le
      (setObjAt (push_apply d fi n c none g []).2.2.1 (push_apply d fi n c none g []).1
        (push_apply d fi n c none g []).2.1)
      (push_apply d fi n c none g []).1 t.obj
    omega

/-- Move resolution never mints a move token: the token count never grows. -/
theorem try_to_move_count (lw : LogicalWorld) (c d : IVec2) (f : Int) :
    countTokens (try_to_move lw c d f).resulting_lw.grid ≤ countTokens lw.grid := by
  cases hs : (what_would_happen_if_try_to_move lw c d f).success with
  | false =>
    simp only [try_to_move, hs, Bool.false_eq_true, if_false]
    rcases hfi : (what_would_happen_if_try_to_move lw c d f).final_interaction with _ | i
    · simp only [hfi]
      exact countTokens_shroom_spawn_le _ _ _
    · cases i <;> simp only [hfi] <;>
        refine le_trans (countTokens_shroom_spawn_le _ _ _) ?_
      case NonLethalHit dm =>
        rw [countTokens_modifyObjAt_tokpres _ _ _ (fun o => has_move_token_take_damage o dm)]
      all_goals exact le_refl _
  | true =>
    simp only [try_to_move, hs, if_true]
    rcases hfi : (what_would_happen_if_try_to_move lw c d f).final_interaction with _ | i
    · simp only [hfi]
      exact le_trans (countTokens_shroom_spawn_le _ _ _)
        (le_trans (pull_apply_count _ _ _ _ _) (setObj_push_le _ _ _ _ _))
    · cases i <;> simp only [hfi] <;>
        refine le_trans (countTokens_shroom_spawn_le _ _ _)
          (le_trans (pull_apply_count _ _ _ _ _) ?_)
      case NonLethalHit dm => exact setObj_push_le _ _ _ _ _
      case Kill dm => exact setObj_push_le _ _ _ _ _
      case Mine => exact setObj_push_le _ _ _ _ _
      case StompShroom => exact setObj_push_le _ _ _ _ _
      case GainARedo => exact setObj_push_le _ _ _ _ _
      case KeyOpenDoor =>
        refine le_trans (countTokens_setObjAt_le _ _ none) ?_
        have h0 : tokN (none : Option Obj) = 0 := rfl
        have := setObj_push_le d (some InteractionConsequences.KeyOpenDoor)
          (what_would_happen_if_try_to_move lw c d f).non_pulled_length c lw.grid
        omega
      case Exit a => exact exit_swap_le _ _ _ _ _
      case Heal =>
        rw [countTokens_modifyObjAt_tokpres _ _ _ (fun o => has_move_token_heal_obj o)]
        exact setObj_push_le _ _ _ _ _

theorem lookup_mem (g : List (IVec2 × Tile)) (c : IVec2) (t : Tile)
    (h : lookupTile g c = some t) : (c, t) ∈ g := by
  induction g with
  | nil => simp [lookupTile] at h
  | cons e r ih =>
    by_cases he : e.1 = c
    · simp only [lookupTile, he, if_pos] at h
      cases h
      subst he
      exact List.mem_cons_self _ _
    · simp only [lookupTile, he, if_false] at h
      exact List.mem_cons_of_mem _ (ih h)

theorem lookup_eq_of_nodup (g : List (IVec2 × Tile)) (c : IVec2) (t : Tile)
    (hnd : (g.map Prod.fst).Nodup) (hmem : (c, t) ∈ g) : lookupTile g c = some t := by
  induction g with
  | nil => simp at hmem
  | cons e r ih =>
    rcases List.mem_cons.mp hmem with rfl | hr
    · simp [lookupTile]
    · have hnd2 : (r.map Prod.fst).Nodup := (List.nodup_cons.mp hnd).2
      have hne : e.1 ≠ c := by
        intro hc
        have : c ∈ r.map Prod.fst := List.mem_map.mpr ⟨(c, t), hr, rfl⟩
        exact (List.nodup_cons.mp hnd).1 (hc ▸ this)
      simp only [lookupTile, hne, if_false]
      exact ih hnd2 hr

theorem countTokens_eq_zero_iff (g : List (IVec2 × Tile)) :
    countTokens g = 0 ↔ ∀ e ∈ g, tokN e.2.obj = 0 := by
  induction g with
  | nil => simp [countTokens]
  | cons e r ih =>
    simp only [countTokens, List.forall_mem_cons]
    rw [← ih]
    omega

theorem tokN_le_countTokens_of_mem (g : List (IVec2 × Tile)) (e : IVec2 × Tile)
    (h : e ∈ g) : tokN e.2.obj ≤ countTokens g := by
  induction g with
  | nil => simp at h
  | cons e2 r ih =>
    rcases List.mem_cons.mp h with rfl | hr
    · simp only [countTokens]
      omega
    · have := ih hr
      simp only [countTokens]
      omega

theorem handle_move_none_iff_keys (ray : IVec2 → IVec2 → Bool) :
    ∀ (keys : List IVec2) (lw : LogicalWorld),
      handle_move_for_one_agent ray keys lw = none ↔
        ∀ c ∈ keys, hasTokenAt lw c = false := by
  intro keys
  induction keys with
  | nil => intro lw; simp [handle_move_for_one_agent]
  | cons c rest ih =>
    intro lw
    cases ho : objAtList lw.grid c with
    | none =>
      simp [handle_move_for_one_agent, ho, List.forall_mem_cons, ih lw, hasTokenAt]
    | some o =>
      by_cases htok : o.has_move_token
      · simp [handle_move_for_one_agent, ho, htok, List.forall_mem_cons, hasTokenAt]
      · simp [handle_move_for_one_agent, ho, htok, List.forall_mem_cons, ih lw, hasTokenAt]

theorem handle_move_some_count (ray : IVec2 → IVec2 → Bool) :
    ∀ (keys : List IVec2) (lw : LogicalWorld) (t : LogicalTransition),
      handle_move_for_one_agent ray keys lw = some t →
      countTokens t.resulting_lw.grid < countTokens lw.grid := by
  intro keys
  induction keys with
  | nil => intro lw t h; simp [handle_move_for_one_agent] at h
  | cons c rest ih =>
    intro lw t h
    cases ho : objAtList lw.grid c with
    | none =>
      simp only [handle_move_for_one_agent, ho] at h
      exact ih lw t h
    | some o =>
      by_cases htok : o.has_move_token
      · obtain ⟨tile, hlt, htile⟩ :
            ∃ tile, lookupTile lw.grid c = some tile ∧ tile.obj = some o := by
          unfold objAtList at ho
          cases hl : lookupTile lw.grid c with
          | none => rw [hl] at ho; simp at ho
          | some tile => rw [hl] at ho; exact ⟨tile, rfl, ho⟩
        have hex := countTokens_modifyObjAt lw.grid c Obj.take_move_token tile hlt
        have htokn1 : tokN tile.obj = 1 := by rw [htile]; simp [tokN, htok]
        have htokn0 : tokN (tile.obj.map Obj.take_move_token) = 0 := by
          rw [htile]
          simp [tokN, has_move_token_take_move_token]
        have hres : countTokens (modifyObjAt lw.grid c Obj.take_move_token) + 1 =
            countTokens lw.grid := by omega
        simp only [handle_move_for_one_agent, ho, htok, if_true] at h
        injection h with h
        rw [← h]
        split
        next dd hD =>
          split
          next hc =>
            dsimp only [transition_updated_visibility]
            rw [updated_visibility_count]
            have hsac := sacrifice_hit_count
              ⟨modifyObjAt lw.grid c Obj.take_move_token, lw.redo_count, lw.max_redo_count⟩ c dd
            dsimp only at hsac
            omega
          next hc =>
            dsimp only [transition_updated_visibility]
            rw [updated_visibility_count]
            have htr := try_to_move_count
              ⟨modifyObjAt lw.grid c Obj.take_move_token, lw.redo_count, lw.max_redo_count⟩ c dd 2
            dsimp only at htr
            omega
        next hD =>
          dsimp only
          omega
      · simp only [handle_move_for_one_agent, ho, htok, if_false] at h
        exact ih lw t h

theorem keys_setObjAt (g : List (IVec2 × Tile)) (c : IVec2) (o : Option Obj) :
    (setObjAt g c o).map Prod.fst = g.map Prod.fst := by
  induction g with
  | nil => rfl
  | cons e r ih =>
    by_cases he : e.1 = c <;> simp [setObjAt, he, ih]

theorem keys_modifyObjAt (g : List (IVec2 × Tile)) (c : IVec2) (f : Obj → Obj) :
    (modifyObjAt g c f).map Prod.fst = g.map Prod.fst := by
  induction g with
  | nil => rfl
  | cons e r ih =>
    by_cases he : e.1 = c <;> simp [modifyObjAt, he, ih]

theorem keys_mapVisible (f : IVec2 → Tile → Bool) (g : List (IVec2 × Tile)) :
    (mapVisible f g).map Prod.fst = g.map Prod.fst := by
  induction g with
  | nil => rfl
  | cons e r ih =>
    simp only [mapVisible, List.map_cons] at ih ⊢
    rw [ih]

theorem keys_push_apply (d : IVec2) (fi : Option InteractionConsequences) :
    ∀ (n : Nat) (c : IVec2) (prev : Option Obj) (g : List (IVec2 × Tile))
      (ev : List LogicalEvent),
      (push_apply d fi n c prev g ev).2.2.1.map Prod.fst = g.map Prod.fst := by
  intro n
  induction n with
  | zero => intro c prev g ev; rfl
  | succ m ih =>
    intro c prev g ev
    rw [push_apply_succ_eq, ih, keys_setObjAt]

theorem keys_pull_apply (d : IVec2) :
    ∀ (n : Nat) (c : IVec2) (g : List (IVec2 × Tile)) (ev : List LogicalEvent),
      (pull_apply d n c g ev).1.map Prod.fst = g.map Prod.fst := by
  intro n
  induction n with
  | zero => intro c g ev; rfl
  | succ m ih =>
    intro c g ev
    rw [pull_apply_succ_eq, ih, keys_setObjAt, keys_setObjAt]

theorem keys_shroom_spawn (orig g : List (IVec2 × Tile)) (m : IVec2) :
    (shroom_spawn orig g m).map Prod.fst = g.map Prod.fst := by
  unfold shroom_spawn
  split_ifs with hcond
  · exact keys_setObjAt g m (some (Obj.Shroom false))
  · rfl

theorem keys_try_to_move (lw : LogicalWorld) (c d : IVec2) (f : Int) :
    (try_to_move lw c d f).resulting_lw.grid.map Prod.fst = lw.grid.map Prod.fst := by
  cases hs : (what_would_happen_if_try_to_move lw c d f).success with
  | false =>
    simp only [try_to_move, hs, Bool.false_eq_true, if_false]
    rcases hfi : (what_would_happen_if_try_to_move lw c d f).final_interaction with _ | i
    · simp only [hfi]
      exact keys_shroom_spawn _ _ _
    · cases i <;> simp only [hfi] <;>
        rw [keys_shroom_spawn]
      case NonLethalHit dm => rw [keys_modifyObjAt]
  | true =>
    simp only [try_to_move, hs, if_true]
    rcases hfi : (what_would_happen_if_try_to_move lw c d f).final_interaction with _ | i
    · simp only [hfi]
      rw [keys_shroom_spawn, keys_pull_apply, keys_setObjAt, keys_push_apply]
    · cases i <;> simp only [hfi] <;>
        rw [keys_shroom_spawn, keys_pull_apply]
      case NonLethalHit dm => rw [keys_setObjAt, keys_push_apply]
      case Kill dm => rw [keys_setObjAt, keys_push_apply]
      case Mine => rw [keys_setObjAt, keys_push_apply]
      case StompShroom => rw [keys_setObjAt, keys_push_apply]
      case GainARedo => rw [keys_setObjAt, keys_push_apply]
      case KeyOpenDoor => rw [keys_setObjAt, keys_setObjAt, keys_push_apply]
      case Exit a => rw [keys_setObjAt, keys_setObjAt, keys_push_apply]
      case Heal => rw [keys_modifyObjAt, keys_setObjAt, keys_push_apply]

theorem keys_sacrifice_hit (lw : LogicalWorld) (c d : IVec2) :
    (sacrifice_hit lw c d).resulting_lw.grid.map Prod.fst = lw.grid.map Prod.fst := by
  unfold sacrifice_hit
  cases ho : objAtList lw.grid c with
  | none => rfl
  | some hobj =>
    cases ho2 : objAtList (setObjAt lw.grid c none) (c + d) with
    | none =>
      simp only [ho2]
      exact keys_setObjAt _ _ _
    | some tobj =>
      cases hhp : (tobj.take_damage hobj.damages).hp with
      | none =>
        simp only [ho2, hhp]
        rw [keys_modifyObjAt, keys_setObjAt]
      | some hpv =>
        by_cases hle : hpv ≤ 0
        · simp only [ho2, hhp]
          rw [if_pos hle]
          dsimp only
          rw [keys_setObjAt, keys_modifyObjAt, keys_setObjAt]
        · simp only [ho2, hhp]
          rw [if_neg hle]
          dsimp only
          rw [keys_modifyObjAt, keys_setObjAt]

theorem keys_updated_visibility (ray : IVec2 → IVec2 → Bool) (lw : LogicalWorld) :
    (updated_visibility ray lw).grid.map Prod.fst = lw.grid.map Prod.fst := by
  unfold updated_visibility
  cases hp : lw.player_coords with
  | none => simp [keys_mapVisible]
  | some p =>
    dsimp only
    split_ifs with hgem
    · simp [keys_mapVisible]
    · simp [keys_mapVisible]

theorem keys_handle_move (ray : IVec2 → IVec2 → Bool) :
    ∀ (keys : List IVec2) (lw : LogicalWorld) (t : LogicalTransition),
      handle_move_for_one_agent ray keys lw = some t →
      t.resulting_lw.grid.map Prod.fst = lw.grid.map Prod.fst := by
  intro keys
  induction keys with
  | nil => intro lw t h; simp [handle_move_for_one_agent] at h
  | cons c rest ih =>
    intro lw t h
    cases ho : objAtList lw.grid c with
    | none =>
      simp only [handle_move_for_one_agent, ho] at h
      exact ih lw t h
    | some o =>
      by_cases htok : o.has_move_token
      · simp only [handle_move_for_one_agent, ho, htok, if_true] at h
        injection h with h
        rw [← h]
        split
        next dd hD =>
          split
          next hc =>
            dsimp only [transition_updated_visibility]
            rw [keys_updated_visibility]
            have := keys_sacrifice_hit
              ⟨modifyObjAt lw.grid c Obj.take_move_token, lw.redo_count, lw.max_redo_count⟩ c dd
            dsimp only at this
            rw [this, keys_modifyObjAt]
          next hc =>
            dsimp only [transition_updated_visibility]
            rw [keys_updated_visibility]
            have := keys_try_to_move
              ⟨modifyObjAt lw.grid c Obj.take_move_token, lw.redo_count, lw.max_redo_count⟩ c dd 2
            dsimp only at this
            rw [this, keys_modifyObjAt]
        next hD =>
          dsimp only
          rw [keys_modifyObjAt]
      · simp only [handle_move_for_one_agent, ho, htok, if_false] at h
        exact ih lw t h

theorem grid_keys_eq (lw : LogicalWorld) : grid_keys lw = lw.grid.map Prod.fst := rfl

theorem handle_move_none_iff_count (ray : IVec2 → IVec2 → Bool) (keys : List IVec2)
    (lw : LogicalWorld) (hnd : (lw.grid.map Prod.fst).Nodup)
    (hcov : ∀ e ∈ lw.grid, e.1 ∈ keys) :
    handle_move_for_one_agent ray keys lw = none ↔ countTokens lw.grid = 0 := by
  rw [handle_move_none_iff_keys]
  constructor
  · intro h
    rw [countTokens_eq_zero_iff]
    intro e he
    by_contra hne
    have h1 : hasTokenAt lw e.1 = true := by
      unfold hasTokenAt
      rw [objAtList_eq_of_lookup lw.grid e.1 e.2
        (lookup_eq_of_nodup lw.grid e.1 e.2 hnd (by simpa using he))]
      cases hobj : e.2.obj with
      | none => rw [hobj] at hne; simp [tokN] at hne
      | some o2 =>
        rw [hobj] at hne
        simp only [tokN] at hne
        by_cases ht : o2.has_move_token
        · exact ht
        · simp [ht] at hne
    have := h e.1 (hcov e he)
    rw [h1] at this
    exact absurd this (by simp)
  · intro h c hc
    unfold hasTokenAt
    cases ho : objAtList lw.grid c with
    | none => rfl
    | some o =>
      obtain ⟨tile, hlt, htile⟩ :
          ∃ tile, lookupTile lw.grid c = some tile ∧ tile.obj = some o := by
        unfold objAtList at ho
        cases hl : lookupTile lw.grid c with
        | none => rw [hl] at ho; simp at ho
        | some tile => rw [hl] at ho; exact ⟨tile, rfl, ho⟩
      have hmem := lookup_mem lw.grid c tile hlt
      have hz := (countTokens_eq_zero_iff lw.grid).mp h (c, tile) hmem
      rw [htile] at hz
      simp only [tokN] at hz
      by_cases ht : o.has_move_token
      · simp [ht] at hz
      · simpa using ht

theorem run_agents_none (ray : IVec2 → IVec2 → Bool) :
    ∀ (n : Nat) (lw : LogicalWorld), (lw.grid.map Prod.fst).Nodup →
      countTokens lw.grid ≤ n →
      handle_move_for_one_agent ray (grid_keys (run_agents ray n lw))
        (run_agents ray n lw) = none := by
  intro n
  induction n with
  | zero =>
    intro lw hnd hcnt
    rw [run_agents]
    exact (handle_move_none_iff_count ray (grid_keys lw) lw hnd
      (fun e he => List.mem_map.mpr ⟨e, he, rfl⟩)).mpr (by omega)
  | succ m ih =>
    intro lw hnd hcnt
    rw [run_agents]
    cases hh : handle_move_for_one_agent ray (grid_keys lw) lw with
    | none => exact hh
    | some t =>
      simp only [hh]
      apply ih t.resulting_lw
      · rw [keys_handle_move ray (grid_keys lw) lw t hh]
        exact hnd
      · have := handle_move_some_count ray (grid_keys lw) lw t hh
        omega

/-- C10: a call of the agent scheduler returns none exactly when no object in
the grid holds a move token; a returned transition's world holds strictly
fewer tokens than the input world; and repeatedly replacing the world by the
transition's result reaches none after at most as many calls as there are
tokens. Quantified over every key order covering the grid (the source
shuffles the grid keys) and every ray oracle. -/
theorem claim_c10_agent_token_progress (ray : IVec2 → IVec2 → Bool) (keys : List IVec2)
    (lw : LogicalWorld) (hnd : (lw.grid.map Prod.fst).Nodup)
    (hcov : ∀ e ∈ lw.grid, e.1 ∈ keys) :
    (handle_move_for_one_agent ray keys lw = none ↔ countTokens lw.grid = 0) ∧
    (∀ t, handle_move_for_one_agent ray keys lw = some t →
      countTokens t.resulting_lw.grid < countTokens lw.grid) ∧
    handle_move_for_one_agent ray (grid_keys (run_agents ray (countTokens lw.grid) lw))
        (run_agents ray (countTokens lw.grid) lw) = none :=
  ⟨handle_move_none_iff_count ray keys lw hnd hcov,
    fun t ht => handle_move_some_count ray keys lw t ht,
    run_agents_none ray (countTokens lw.grid) lw hnd (le_refl _)⟩

/-- C10 witness: a single token-holding Slime next to the Bunny. -/
theorem claim_c10_agent_token_progress_witness :
    (world_slime.grid.map Prod.fst).Nodup ∧
    (∀ e ∈ world_slime.grid, e.1 ∈ grid_keys world_slime) ∧
    ((handle_move_for_one_agent (fun _ _ => false) (grid_keys world_slime) world_slime = none ↔
        countTokens world_slime.grid = 0) ∧
      (∀ t, handle_move_for_one_agent (fun _ _ => false) (grid_keys world_slime) world_slime =
          some t →
        countTokens t.resulting_lw.grid < countTokens world_slime.grid) ∧
      handle_move_for_one_agent (fun _ _ => false)
          (grid_keys (run_agents (fun _ _ => false) (countTokens world_slime.grid) world_slime))
          (run_agents (fun _ _ => false) (countTokens world_slime.grid) world_slime) = none) :=
  ⟨by decide, by decide,
    claim_c10_agent_token_progress (fun _ _ => false) (grid_keys world_slime) world_slime
      (by decide) (by decide)⟩
